import Mathlib

/-!
# Lee geometric position controller: model and verified properties

Shallow embedding of
`rotors_simulator/rotors_control/src/library/lee_position_controller.cpp`.

* Scalars.  The C++ code computes in `double`.  The model is generic in an ordered field `K`
  (so that every definition can be run over `ℚ`), and the theorems are stated over `ℝ`, which is
  the reading the specification gives to its arithmetic: rounding, overflow and signed zeros
  are left out.
* NaN.  The quotient `-force / force.norm()` of line 246 has no guard: for the zero force it
  is the IEEE quotient `0 / 0 = NaN` in each component, and the NaN reaches `angle_error`,
  `angular_rate_error`, the moment and every rotor velocity.  A value that may be NaN is an
  `Option`: `none` is NaN (for a 3-vector or a 3×3 matrix: NaN in every entry, which is what
  line 246 produces and what the arithmetic on it keeps).
* The two other divisions, by `dt` (line 273) and by the determinant inside `inverse()`
  (line 177), are field divisions.  The divisor `dt` is 0.02 from the constructor on; the
  theorems about what the pseudo-inverse returns assume `A·Aᵀ` invertible, and the theorem on
  the sign of the rotor velocities assumes both divisors non-zero.
* The scalar functions of the C math library (`sqrt`, `atan2`, `cos`, `sin`) are passed in a
  `Libm` record; over `ℝ` they are `Real.sqrt`, `fun y x => Complex.arg ⟨x, y⟩`, `Real.cos`
  and `Real.sin`.
* Eigen fixed-size vectors and matrices are functions on `Fin n`; the dynamically sized output
  vector `Eigen::VectorXd` is a `List`, so that its length is a fact to be proved.
* The controller object is a record, member functions are functions on that record, the output
  pointers of `CalculateRotorVelocities` are a record `Outputs` that is passed in and returned.
* The wall clock (`start`, `end`, `last_time`) is not modelled: the measured interval
  `dt_tictoc` is computed and discarded by the code.
-/

namespace rotors_control

/-! ## Scalar library and Eigen operations -/

/-- The functions of the C math library that the controller calls. -/
structure Libm (K : Type) where
  sqrt : K → K
  atan2 : K → K → K
  cos : K → K
  sin : K → K

/-- Fixed-size column vector `Eigen::Vector3d`. -/
abbrev Vector3d (K : Type) := Fin 3 → K

/-- Fixed-size column vector `Eigen::Vector4d`. -/
abbrev Vector4d (K : Type) := Fin 4 → K

/-- Fixed-size matrix `Eigen::Matrix3d`. -/
abbrev Matrix3d (K : Type) := Matrix (Fin 3) (Fin 3) K

/-- Fixed-size matrix `Eigen::Matrix4d`. -/
abbrev Matrix4d (K : Type) := Matrix (Fin 4) (Fin 4) K

/-- Eigen `a.cwiseProduct(b)`: the element-wise product. -/
def cwiseProduct {K : Type} [Mul K] (a b : Vector3d K) : Vector3d K :=
  fun i => a i * b i

/-- Eigen `a.dot(b)` on 3-vectors. -/
def dot {K : Type} [Mul K] [Add K] (a b : Vector3d K) : K :=
  a 0 * b 0 + a 1 * b 1 + a 2 * b 2

/-- Eigen `a.cross(b)`. -/
def cross {K : Type} [Mul K] [Sub K] (a b : Vector3d K) : Vector3d K :=
  ![a 1 * b 2 - a 2 * b 1, a 2 * b 0 - a 0 * b 2, a 0 * b 1 - a 1 * b 0]

/-- Eigen `v.squaredNorm()`. -/
def squaredNorm {K : Type} [Mul K] [Add K] (v : Vector3d K) : K :=
  dot v v

/-- Eigen `v.norm()`: the square root of the squared norm. -/
def norm {K : Type} [Mul K] [Add K] (L : Libm K) (v : Vector3d K) : K :=
  L.sqrt (squaredNorm v)

/-- Eigen `v.normalize()`: divides by the norm when the squared norm is positive and leaves the
vector alone otherwise. -/
def normalize {K : Type} [LinearOrderedField K] (L : Libm K) (v : Vector3d K) : Vector3d K :=
  if 0 < squaredNorm v then fun i => v i / L.sqrt (squaredNorm v) else v

/-- The matrix whose columns are `c0`, `c1`, `c2` (the three `R_des.col(j) = ...` assignments). -/
def fromCols {K : Type} (c0 c1 c2 : Vector3d K) : Matrix3d K :=
  Matrix.of fun i j => ![c0 i, c1 i, c2 i] j

/-- Eigen `M.col(j)`. -/
def col {K : Type} (M : Matrix3d K) (j : Fin 3) : Vector3d K :=
  fun i => M i j

/-- Eigen `M.inverse()` for a fixed-size 4×4 matrix: the cofactor formula, adjugate divided by
determinant. -/
def inverse {K : Type} [Field K] (M : Matrix4d K) : Matrix4d K :=
  (M.det)⁻¹ • M.adjugate

/-- Eigen `numext::maxi`, the coefficient operation of `cwiseMax`. -/
def maxi {K : Type} [LinearOrderedField K] (a b : K) : K :=
  if a < b then b else a

/-- Eigen `v.cwiseMax(w)` on dynamically sized vectors. -/
def cwiseMax {K : Type} [LinearOrderedField K] (v w : List K) : List K :=
  List.zipWith maxi v w

/-- Eigen `v.cwiseSqrt()` on a dynamically sized vector. -/
def cwiseSqrt {K : Type} (L : Libm K) (v : List K) : List K :=
  v.map L.sqrt

/-- Eigen `Eigen::VectorXd::Zero(n)`. -/
def ZeroXd {K : Type} [Zero K] (n : Nat) : List K :=
  List.replicate n 0

/-- Eigen `v->resize(n)` on the output vector, whose coefficients may be NaN: a vector of the
right size is left alone, otherwise it is reallocated (Eigen leaves the new coefficients
unspecified; both callers overwrite them, zero stands for them here). -/
def resizeXd {K : Type} [Zero K] (v : List (Option K)) (n : Nat) : List (Option K) :=
  if v.length = n then v else List.replicate n (some 0)

/-- Unit quaternion `Eigen::Quaterniond` (coefficients `w`, `x`, `y`, `z`). -/
structure Quaterniond (K : Type) where
  w : K
  x : K
  y : K
  z : K

/-- Eigen `q.toRotationMatrix()`. -/
def Quaterniond.toRotationMatrix {K : Type} [Field K] (q : Quaterniond K) : Matrix3d K :=
  let tx := 2 * q.x
  let ty := 2 * q.y
  let tz := 2 * q.z
  let twx := tx * q.w
  let twy := ty * q.w
  let twz := tz * q.w
  let txx := tx * q.x
  let txy := ty * q.x
  let txz := tz * q.x
  let tyy := ty * q.y
  let tyz := tz * q.y
  let tzz := tz * q.z
  !![1 - (tyy + tzz), txy - twz, txz + twy;
     txy + twz, 1 - (txx + tzz), tyz - twx;
     txz - twy, tyz + twx, 1 - (txx + tyy)]

/-- Modelled from the spec: `vectorFromSkewMatrix` of `rotors_control/common.h`, which is not
among the sources.  The spec describes it as the vee-map, the 3-vector `v` whose cross-product
matrix is the antisymmetric matrix given: `v = (m(2,1), m(0,2), m(1,0))`. -/
def vectorFromSkewMatrix {K : Type} (m : Matrix3d K) : Vector3d K :=
  ![m 2 1, m 0 2, m 1 0]

/-! ## Data model -/

/-- Vehicle state `EigenOdometry`: position (world), orientation, velocity (body), angular
velocity (body). -/
structure EigenOdometry (K : Type) where
  position : Vector3d K
  orientation : Quaterniond K
  velocity : Vector3d K
  angular_velocity : Vector3d K

/-- Trajectory command `mav_msgs::EigenTrajectoryPoint`; the controller reads these three
members only. -/
structure EigenTrajectoryPoint (K : Type) where
  position_W : Vector3d K
  velocity_W : Vector3d K
  acceleration_W : Vector3d K

/-- Member `vehicle_parameters_`.  The rotor configuration enters the controller only through
`rotors.size()`, which is the index `N` of the controller type. -/
structure VehicleParameters (K : Type) where
  mass_ : K
  gravity_ : K

/-- Member `controller_parameters_`: the 4×N allocation matrix and the four gain vectors. -/
structure LeePositionControllerParameters (K : Type) (N : Nat) where
  allocation_matrix_ : Matrix (Fin 4) (Fin N) K
  position_gain_ : Vector3d K
  velocity_gain_ : Vector3d K
  attitude_gain_ : Vector3d K
  angular_rate_gain_ : Vector3d K

/-- The controller object, with `N = vehicle_parameters_.rotor_configuration_.rotors.size()`.
The members are those that the member functions below read or assign.  Left out are the members
that `InitializeParameters` only resizes (`angular_acc_to_rotor_velocities_`, `mat_FIFO`,
`mat_mass_FIFO`) and the clock samples (`last_time`, `start`, `end`); none of them is read by
the code.  The members `angle_error` and `angular_rate_error` may hold NaN (`none`: NaN in
all three components).  The counters are C `int`s; from the constructed controller they stay within
`[0, 45]`, so no overflow occurs and `Int` is exact. -/
structure LeePositionController (K : Type) (N : Nat) where
  initialized_params_ : Bool
  controller_active_ : Bool
  vehicle_parameters_ : VehicleParameters K
  controller_parameters_ : LeePositionControllerParameters K N
  odometry_ : EigenOdometry K
  command_trajectory_ : EigenTrajectoryPoint K
  Last_R_des : Matrix3d K
  Last_angular_rate_des : Vector3d K
  I : Matrix4d K
  Inertia_hat : Matrix3d K
  moment_thrust_to_rotor_velocities_ : Matrix (Fin N) (Fin 4) K
  angle_error : Option (Vector3d K)
  angular_rate_error : Option (Vector3d K)
  Psi : K
  k_R : Vector3d K
  k_omega : Vector3d K
  theta_diag_hat : Vector3d K
  theta_diag_hat_dot : Vector3d K
  last_omega : Vector3d K
  last_moment_control_input : Vector3d K
  last_angular_velocity : Vector3d K
  Y_diag_cl_integral_last : Matrix3d K
  y_diag_cl_lower_case : Matrix3d K
  M_integral : Vector3d K
  M_integral_last : Vector3d K
  M_bar : Vector3d K
  index : Int
  full : Int
  ICL_N : Int
  dt : K
  theta_m_hat : Vector3d K
  theta_m_hat_dot : Vector3d K
  theta_m_hat_R : K
  theta_m_hat_dot_R : K
  y_m_cl_integral : Vector3d K
  y_m_cl_integral_last : Vector3d K
  y_m_cl_lower_case : Vector3d K
  index_m : Int
  full_m : Int
  ICL_N_m : Int

/-- The message `nav_msgs::Odometry* error`, restricted to the members the controller writes:
`pose.pose.position`, `pose.pose.orientation` (x, y, z and w), `twist.twist.linear`,
`twist.twist.angular`.  The x, y, z of the orientation and the angular part are copies of
`angle_error` and `angular_rate_error` and may be NaN like them. -/
structure ErrorOdometry (K : Type) where
  position : Vector3d K
  orientation : Option (Vector3d K)
  orientation_w : K
  linear : Vector3d K
  angular : Option (Vector3d K)

/-- The four output arguments of `CalculateRotorVelocities`, as the caller holds them.  Each
rotor velocity is a real number or NaN (`none`). -/
structure Outputs (K : Type) where
  rotor_velocities : List (Option K)
  theta_esti : Vector3d K
  theta_m_esti : Vector3d K
  error : ErrorOdometry K

/-! ## Member functions -/

/-- Member function `InitializeParameters` (lines 39-85).  The argument
`calculateAllocationMatrix` is the 4×N matrix that the function of that name (not among the
sources) returns for the rotor configuration of the vehicle. -/
def InitializeParameters {K : Type} {N : Nat} [Field K]
    (calculateAllocationMatrix : Matrix (Fin 4) (Fin N) K) (s : LeePositionController K N) :
    LeePositionController K N :=
  { s with
    controller_parameters_ :=
      { s.controller_parameters_ with allocation_matrix_ := calculateAllocationMatrix }
    Last_R_des := 0
    Last_angular_rate_des := 0
    I := 0
    Inertia_hat := !![0.034, 0, 0; 0, 0.045, 0; 0, 0, 0.098]
    theta_diag_hat := ![0, 0, 0]
    theta_diag_hat_dot := ![0, 0, 0]
    last_omega := ![0, 0, 0]
    last_moment_control_input := ![0, 0, 0]
    last_angular_velocity := ![0, 0, 0]
    Y_diag_cl_integral_last := 0
    y_diag_cl_lower_case := 0
    M_integral := ![0, 0, 0]
    M_integral_last := ![0, 0, 0]
    M_bar := ![0, 0, 0]
    index := 0
    full := 0
    ICL_N := 45
    dt := 0.02
    theta_m_hat := ![0, 0, 0]
    theta_m_hat_dot := ![0, 0, 0]
    theta_m_hat_R := 0
    theta_m_hat_dot_R := 0
    y_m_cl_integral := 0
    y_m_cl_integral_last := 0
    y_m_cl_lower_case := 0
    index_m := 0
    full_m := 0
    ICL_N_m := 20
    initialized_params_ := true }

/-- The constructor `LeePositionController::LeePositionController()` (lines 30-35): both flags
are set to false, then `InitializeParameters` runs.  The argument `raw` gives the members that
neither step assigns (default-constructed or indeterminate). -/
def newLeePositionController {K : Type} {N : Nat} [Field K]
    (calculateAllocationMatrix : Matrix (Fin 4) (Fin N) K) (raw : LeePositionController K N) :
    LeePositionController K N :=
  InitializeParameters calculateAllocationMatrix
    { raw with initialized_params_ := false, controller_active_ := false }

/-- Member function `SetOdometry` (lines 184-187). -/
def SetOdometry {K : Type} {N : Nat} (s : LeePositionController K N) (odometry : EigenOdometry K) :
    LeePositionController K N :=
  { s with odometry_ := odometry }

/-- Member function `SetTrajectoryPoint` (lines 189-193). -/
def SetTrajectoryPoint {K : Type} {N : Nat} (s : LeePositionController K N)
    (command_trajectory : EigenTrajectoryPoint K) : LeePositionController K N :=
  { s with command_trajectory_ := command_trajectory, controller_active_ := true }

/-- The three output arguments of `ComputeDesiredForce`. -/
structure DesiredForce (K : Type) where
  force_control_input : Vector3d K
  position_error : Vector3d K
  velocity_error : Vector3d K

/-- Member function `ComputeDesiredForce` (lines 195-220). -/
def ComputeDesiredForce {K : Type} {N : Nat} [Field K] (s : LeePositionController K N) :
    DesiredForce K :=
  let e_3 : Vector3d K := ![0, 0, 1]
  let position_error : Vector3d K := s.odometry_.position - s.command_trajectory_.position_W
  let R_W_I : Matrix3d K := s.odometry_.orientation.toRotationMatrix
  let velocity_W : Vector3d K := R_W_I.mulVec s.odometry_.velocity
  let velocity_error : Vector3d K := velocity_W - s.command_trajectory_.velocity_W
  { force_control_input :=
      (cwiseProduct position_error s.controller_parameters_.position_gain_
        + cwiseProduct velocity_error s.controller_parameters_.velocity_gain_)
      - (s.vehicle_parameters_.mass_ * s.vehicle_parameters_.gravity_) • e_3
      - s.vehicle_parameters_.mass_ • s.command_trajectory_.acceleration_W
    position_error := position_error
    velocity_error := velocity_error }

/-- The local `yaw` of `ComputeDesiredAngularAcc` after its wrap step (lines 235-238). -/
def yaw {K : Type} [LinearOrderedField K] (L : Libm K) (velocity_W : Vector3d K) : K :=
  let yaw := L.atan2 (velocity_W 1) (velocity_W 0)
  if yaw < 0 then yaw + 6.28 else yaw

/-- The local `b1_des` of `ComputeDesiredAngularAcc` (line 240). -/
def b1_des {K : Type} [LinearOrderedField K] (L : Libm K) (velocity_W : Vector3d K) :
    Vector3d K :=
  ![L.cos (yaw L velocity_W), L.sin (yaw L velocity_W), 0]

/-- The local `b3_des` of `ComputeDesiredAngularAcc` (line 246), the unguarded quotient
`-force_control_input / force_control_input.norm()`.  The norm is zero only for the zero
force, and then every component is the IEEE quotient `0 / 0`, NaN: the result is `none`. -/
def b3_des {K : Type} [LinearOrderedField K] (L : Libm K) (force_control_input : Vector3d K) :
    Option (Vector3d K) :=
  if norm L force_control_input = 0 then none
  else some fun i => (-force_control_input) i / norm L force_control_input

/-- The local `b2_des` of `ComputeDesiredAngularAcc` (lines 250-251).  The cross product of a
NaN vector is NaN in every component, and `normalize` leaves it so (its squared norm is NaN,
which is not positive). -/
def b2_des {K : Type} [LinearOrderedField K] (L : Libm K)
    (force_control_input velocity_W : Vector3d K) : Option (Vector3d K) :=
  match b3_des L force_control_input with
  | some b3_des => some (normalize L (cross b3_des (b1_des L velocity_W)))
  | none => none

/-- The local `R_des` of `ComputeDesiredAngularAcc` (lines 254-257); NaN in every entry when
`b2_des` and `b3_des` are NaN. -/
def R_des {K : Type} [LinearOrderedField K] (L : Libm K)
    (force_control_input velocity_W : Vector3d K) : Option (Matrix3d K) :=
  match b2_des L force_control_input velocity_W, b3_des L force_control_input with
  | some b2_des, some b3_des => some (fromCols (cross b2_des b3_des) b2_des b3_des)
  | _, _ => none

/-- The attitude error of `ComputeDesiredAngularAcc` (lines 261-262) as a function of the
desired and actual rotation matrices: `angle_error_matrix` passed to `vectorFromSkewMatrix`. -/
def angle_error {K : Type} [Field K] (R_des R : Matrix3d K) : Vector3d K :=
  vectorFromSkewMatrix ((0.5 : K) • (R_des.transpose * R - R.transpose * R_des))

/-- The local `angular_rate_des` of `ComputeDesiredAngularAcc` (lines 272-276). -/
def angular_rate_des {K : Type} [Field K] (R_des Last_R_des : Matrix3d K) (dt : K) :
    Vector3d K :=
  let R_des_dot : Matrix3d K := Matrix.of fun i j => (R_des - Last_R_des) i j / dt
  vectorFromSkewMatrix (R_des.transpose * R_des_dot)

/-- Member function `ComputeDesiredAngularAcc` (lines 224-287).  It returns the controller with
the members `angle_error`, `angular_rate_error`, `k_R`, `k_omega` assigned, and the output
argument `moment_control_input`; the output argument `angular_acceleration` is never written by
the code.  No statement of the function tests for NaN: when `R_des` is NaN, so are
`angle_error` (line 261: every entry of `angle_error_matrix` is a sum of products with entries
of `R_des`), `angular_rate_des` (lines 273-276), `angular_rate_error` (line 280) and all three
components of the moment (lines 284-286). -/
def ComputeDesiredAngularAcc {K : Type} {N : Nat} [LinearOrderedField K] (L : Libm K)
    (s : LeePositionController K N) (force_control_input : Vector3d K) :
    LeePositionController K N × Option (Vector3d K) :=
  let R : Matrix3d K := s.odometry_.orientation.toRotationMatrix
  let R_des : Option (Matrix3d K) :=
    R_des L force_control_input s.command_trajectory_.velocity_W
  let angle_error : Option (Vector3d K) :=
    match R_des with
    | some R_des => some (angle_error R_des R)
    | none => none
  let angular_rate_des : Option (Vector3d K) :=
    match R_des with
    | some R_des => some (angular_rate_des R_des s.Last_R_des s.dt)
    | none => none
  let angular_rate_error : Option (Vector3d K) :=
    match R_des, angular_rate_des with
    | some R_des, some angular_rate_des =>
        some (s.odometry_.angular_velocity - (R.transpose * R_des).mulVec angular_rate_des)
    | _, _ => none
  let k_R : Vector3d K := s.controller_parameters_.attitude_gain_
  let k_omega : Vector3d K := s.controller_parameters_.angular_rate_gain_
  let moment_control_input : Option (Vector3d K) :=
    match angle_error, angular_rate_error with
    | some angle_error, some angular_rate_error =>
        some (- cwiseProduct angle_error k_R
          - cwiseProduct angular_rate_error k_omega
          + cross s.odometry_.angular_velocity
              (s.Inertia_hat.mulVec s.odometry_.angular_velocity))
    | _, _ => none
  ({ s with
      angle_error := angle_error
      angular_rate_error := angular_rate_error
      k_R := k_R
      k_omega := k_omega },
    moment_control_input)

/-- The matrix assigned to `moment_thrust_to_rotor_velocities_` (line 177). -/
def moment_thrust_to_rotor_velocities {K : Type} {N : Nat} [Field K]
    (allocation_matrix : Matrix (Fin 4) (Fin N) K) : Matrix (Fin N) (Fin 4) K :=
  allocation_matrix.transpose * inverse (allocation_matrix * allocation_matrix.transpose)

/-- The two assignments to the member `I` (lines 174-175): the upper-left 3×3 block becomes
`Inertia_hat`, the entry (3,3) becomes 1. -/
def setInertiaBlock {K : Type} [One K] (I : Matrix4d K) (Inertia_hat : Matrix3d K) : Matrix4d K :=
  Matrix.of fun i j =>
    if h : i.val < 3 ∧ j.val < 3 then Inertia_hat ⟨i.val, h.1⟩ ⟨j.val, h.2⟩
    else if i = 3 ∧ j = 3 then 1
    else I i j

/-- The last three assignments to `*rotor_velocities` (lines 178-180): the matrix-vector
product, the clip at zero and the element-wise square root. -/
def allocateRotorVelocities {K : Type} {N : Nat} [LinearOrderedField K] (L : Libm K)
    (moment_thrust_to_rotor_velocities_ : Matrix (Fin N) (Fin 4) K) (moment_thrust : Vector4d K) :
    List K :=
  let rotor_velocities : List K :=
    List.ofFn (moment_thrust_to_rotor_velocities_.mulVec moment_thrust)
  let rotor_velocities := cwiseMax rotor_velocities (ZeroXd rotor_velocities.length)
  cwiseSqrt L rotor_velocities

/-- Member function `CalculateRotorVelocities` (lines 87-182).  The result is `none` when
`assert(initialized_params_)` fails; the output pointers are never null here.  When the moment
is NaN, every coefficient of the product of line 178 is NaN (each is a sum with the term
`P(i,0) * NaN`), `cwiseMax` keeps it (`maxi (NaN, 0)` is `(NaN < 0) ? 0 : NaN`) and so does
the square root: all `N` rotor velocities are NaN. -/
def CalculateRotorVelocities {K : Type} {N : Nat} [LinearOrderedField K] (L : Libm K)
    (s : LeePositionController K N) (out : Outputs K) :
    Option (LeePositionController K N × Outputs K) :=
  if s.initialized_params_ = false then none
  else
    let rotor_velocities : List (Option K) := resizeXd out.rotor_velocities N
    if s.controller_active_ = false then
      some (s, { out with rotor_velocities := (ZeroXd rotor_velocities.length).map some })
    else
      let s := if s.index ≥ s.ICL_N then { s with full := 1, index := 0 } else s
      let s := { s with index := s.index + 1 }
      let s := if s.index_m ≥ s.ICL_N_m then { s with full_m := 1, index_m := 0 } else s
      let s := { s with index_m := s.index_m + 1 }
      let f : DesiredForce K := ComputeDesiredForce s
      let r := ComputeDesiredAngularAcc L s f.force_control_input
      let s := r.1
      let moment_control_input : Option (Vector3d K) := r.2
      let theta_esti : Vector3d K := ![s.theta_diag_hat 0, s.theta_diag_hat 1, s.theta_diag_hat 2]
      let theta_m_esti : Vector3d K := ![s.theta_m_hat_R, s.theta_m_hat_R, s.theta_m_hat_R]
      let error : ErrorOdometry K :=
        { position := ![f.position_error 0, f.position_error 1, f.position_error 2]
          orientation := s.angle_error.map fun e => ![e 0, e 1, e 2]
          orientation_w := s.Psi
          linear := ![f.velocity_error 0, f.velocity_error 1, f.velocity_error 2]
          angular := s.angular_rate_error.map fun e => ![e 0, e 1, e 2] }
      let thrust : K :=
        - dot f.force_control_input (col s.odometry_.orientation.toRotationMatrix 2)
      let s := { s with I := setInertiaBlock s.I s.Inertia_hat }
      let s := { s with
        moment_thrust_to_rotor_velocities_ :=
          moment_thrust_to_rotor_velocities s.controller_parameters_.allocation_matrix_ }
      some (s,
        { rotor_velocities :=
            match moment_control_input with
            | some moment_control_input =>
                (allocateRotorVelocities L s.moment_thrust_to_rotor_velocities_
                  ![moment_control_input 0, moment_control_input 1, moment_control_input 2,
                    thrust]).map some
            | none => List.replicate N none
          theta_esti := theta_esti
          theta_m_esti := theta_m_esti
          error := error })

/-! ## Call sequences -/

/-- One call of the public interface by the driver.  A `CalculateRotorVelocities` call carries
the contents of the output arguments as the caller holds them before the call. -/
inductive Call (K : Type) where
  | SetOdometry (odometry : EigenOdometry K)
  | SetTrajectoryPoint (command_trajectory : EigenTrajectoryPoint K)
  | CalculateRotorVelocities (out : Outputs K)

/-- Whether a call is a `SetTrajectoryPoint` call. -/
def Call.isSetTrajectoryPoint {K : Type} : Call K → Bool
  | Call.SetTrajectoryPoint _ => true
  | _ => false

/-- One call applied to the controller: the controller after the call and, for
`CalculateRotorVelocities`, the output arguments after the call; `none` when the call aborts. -/
def step {K : Type} {N : Nat} [LinearOrderedField K] (L : Libm K)
    (s : LeePositionController K N) : Call K → Option (LeePositionController K N × List (Outputs K))
  | Call.SetOdometry odometry => some (SetOdometry s odometry, [])
  | Call.SetTrajectoryPoint command_trajectory =>
      some (SetTrajectoryPoint s command_trajectory, [])
  | Call.CalculateRotorVelocities out =>
      match CalculateRotorVelocities L s out with
      | none => none
      | some r => some (r.1, [r.2])

/-- A sequence of calls applied in order: the final controller and the outputs of the
`CalculateRotorVelocities` calls, in call order; `none` when a call aborts. -/
def run {K : Type} {N : Nat} [LinearOrderedField K] (L : Libm K) :
    LeePositionController K N → List (Call K) →
      Option (LeePositionController K N × List (Outputs K))
  | s, [] => some (s, [])
  | s, c :: cs =>
      match step L s c with
      | none => none
      | some r =>
          match run L r.1 cs with
          | none => none
          | some r2 => some (r2.1, r.2 ++ r2.2)

/-- Whether a call is a `CalculateRotorVelocities` call. -/
def Call.isCalculateRotorVelocities {K : Type} : Call K → Bool
  | Call.CalculateRotorVelocities _ => true
  | _ => false

/-- The local `angle_error_matrix` of `ComputeDesiredAngularAcc` (line 261). -/
def angle_error_matrix {K : Type} [Field K] (R_des R : Matrix3d K) : Matrix3d K :=
  (0.5 : K) • (R_des.transpose * R - R.transpose * R_des)

/-- Modelled from the spec: the cross-product (skew) matrix of a 3-vector, the matrix
`skew v` with `skew v · x = v × x` for all `x` (glossary, vee-map); in the repository it is
`skewMatrixFromVector` of `rotors_control/common.h`, which is not among the sources. -/
def skewMatrixFromVector {K : Type} [Field K] (v : Vector3d K) : Matrix3d K :=
  !![0, -v 2, v 1; v 2, 0, -v 0; -v 1, v 0, 0]

/-! ## Concrete data used to instantiate the theorems -/

/-- The zero 3-vector. -/
def zero3 (K : Type) [Zero K] : Vector3d K := ![0, 0, 0]

/-- An allocation matrix of a four-rotor vehicle in plus configuration (unit arm length and
unit rotor constants): rows roll, pitch, yaw moment and thrust. -/
def exampleAllocation (K : Type) [Field K] : Matrix (Fin 4) (Fin 4) K :=
  !![0, 1, 0, -1; -1, 0, 1, 0; -1, 1, -1, 1; 1, 1, 1, 1]

/-- Arbitrary contents for the members that the constructor does not assign. -/
def exampleRaw (K : Type) [Field K] : LeePositionController K 4 :=
  { initialized_params_ := false
    controller_active_ := true
    vehicle_parameters_ := { mass_ := 1, gravity_ := 10 }
    controller_parameters_ :=
      { allocation_matrix_ := 0
        position_gain_ := ![6, 6, 6]
        velocity_gain_ := ![4, 4, 4]
        attitude_gain_ := ![3, 3, 3]
        angular_rate_gain_ := ![1, 1, 1] }
    odometry_ :=
      { position := zero3 K
        orientation := { w := 1, x := 0, y := 0, z := 0 }
        velocity := zero3 K
        angular_velocity := zero3 K }
    command_trajectory_ :=
      { position_W := zero3 K, velocity_W := zero3 K, acceleration_W := zero3 K }
    Last_R_des := 1
    Last_angular_rate_des := zero3 K
    I := 1
    Inertia_hat := 1
    moment_thrust_to_rotor_velocities_ := 0
    angle_error := some (zero3 K)
    angular_rate_error := some (zero3 K)
    Psi := 7
    k_R := zero3 K
    k_omega := zero3 K
    theta_diag_hat := ![1, 2, 3]
    theta_diag_hat_dot := zero3 K
    last_omega := zero3 K
    last_moment_control_input := zero3 K
    last_angular_velocity := zero3 K
    Y_diag_cl_integral_last := 1
    y_diag_cl_lower_case := 1
    M_integral := zero3 K
    M_integral_last := zero3 K
    M_bar := zero3 K
    index := 3
    full := 1
    ICL_N := 0
    dt := 1
    theta_m_hat := zero3 K
    theta_m_hat_dot := zero3 K
    theta_m_hat_R := 5
    theta_m_hat_dot_R := 0
    y_m_cl_integral := zero3 K
    y_m_cl_integral_last := zero3 K
    y_m_cl_lower_case := zero3 K
    index_m := 3
    full_m := 1
    ICL_N_m := 0 }

/-- A freshly constructed controller of a four-rotor vehicle. -/
def exampleController (K : Type) [Field K] : LeePositionController K 4 :=
  newLeePositionController (exampleAllocation K) (exampleRaw K)

/-- Output arguments as a caller may hold them before a call. -/
def exampleOutputs (K : Type) [Field K] : Outputs K :=
  { rotor_velocities := [some 5]
    theta_esti := zero3 K
    theta_m_esti := zero3 K
    error :=
      { position := zero3 K
        orientation := some (zero3 K)
        orientation_w := 0
        linear := zero3 K
        angular := some (zero3 K) } }

/-- An odometry sample: at the origin, level, at rest. -/
def exampleOdometry (K : Type) [Field K] : EigenOdometry K :=
  { position := zero3 K
    orientation := { w := 1, x := 0, y := 0, z := 0 }
    velocity := zero3 K
    angular_velocity := zero3 K }

/-- A trajectory command: hold the origin while heading along the world x axis. -/
def exampleTrajectoryPoint (K : Type) [Field K] : EigenTrajectoryPoint K :=
  { position_W := zero3 K, velocity_W := ![1, 0, 0], acceleration_W := zero3 K }

/-- The half-turn about the world x axis. -/
def halfTurnX (K : Type) [Field K] : Matrix3d K :=
  !![1, 0, 0; 0, -1, 0; 0, 0, -1]

/-- An odometry sample: at the origin, level, flying along the body x axis at unit speed. -/
def cruiseOdometry (K : Type) [Field K] : EigenOdometry K :=
  { position := zero3 K
    orientation := { w := 1, x := 0, y := 0, z := 0 }
    velocity := ![1, 0, 0]
    angular_velocity := zero3 K }

/-- An odometry sample: at the origin, level, at rest, rolling at unit rate. -/
def rollingOdometry (K : Type) [Field K] : EigenOdometry K :=
  { position := zero3 K
    orientation := { w := 1, x := 0, y := 0, z := 0 }
    velocity := zero3 K
    angular_velocity := ![1, 0, 0] }

/-- A trajectory command: hold the origin at rest. -/
def holdTrajectoryPoint (K : Type) [Field K] : EigenTrajectoryPoint K :=
  { position_W := zero3 K, velocity_W := zero3 K, acceleration_W := zero3 K }

/-- A trajectory command: free fall from the origin, the desired acceleration being minus the
gravity of the example vehicle. -/
def freeFallTrajectoryPoint (K : Type) [Field K] : EigenTrajectoryPoint K :=
  { position_W := zero3 K, velocity_W := zero3 K, acceleration_W := ![0, 0, -10] }

/-- The example vehicle cruising along x on the commanded trajectory: the position and
velocity errors vanish and the desired force is `(0, 0, −10)`. -/
def cruiseController (K : Type) [Field K] : LeePositionController K 4 :=
  SetTrajectoryPoint (SetOdometry (exampleController K) (cruiseOdometry K))
    (exampleTrajectoryPoint K)

/-- The example vehicle, rolling, commanded to fall freely: the desired force is zero. -/
def freeFallController (K : Type) [Field K] : LeePositionController K 4 :=
  SetTrajectoryPoint (SetOdometry (exampleController K) (rollingOdometry K))
    (freeFallTrajectoryPoint K)

/-- The example vehicle at rest, commanded to fall freely: the desired force is zero. -/
def restingFreeFallController (K : Type) [Field K] : LeePositionController K 4 :=
  SetTrajectoryPoint (SetOdometry (exampleController K) (exampleOdometry K))
    (freeFallTrajectoryPoint K)

/-- A vehicle of mass 1 under gravity 9.81, freshly constructed, then given the odometry
at rest at the origin and the command to hold the origin. -/
def hoverController (K : Type) [Field K] : LeePositionController K 4 :=
  SetTrajectoryPoint
    (SetOdometry
      (newLeePositionController (exampleAllocation K)
        { exampleRaw K with vehicle_parameters_ := { mass_ := 1, gravity_ := 9.81 } })
      (exampleOdometry K))
    (holdTrajectoryPoint K)

/-! ## Properties of the call sequence machinery -/

theorem newLeePositionController_flags {K : Type} {N : Nat} [Field K]
    (A : Matrix (Fin 4) (Fin N) K) (raw : LeePositionController K N) :
    (newLeePositionController A raw).initialized_params_ = true
      ∧ (newLeePositionController A raw).controller_active_ = false := by
  simp [newLeePositionController, InitializeParameters]

theorem resizeXd_length {K : Type} [Zero K] (v : List (Option K)) (n : Nat) :
    (resizeXd v n).length = n := by
  unfold resizeXd
  split
  · assumption
  · simp

theorem CalculateRotorVelocities_inactive {K : Type} {N : Nat} [LinearOrderedField K]
    (L : Libm K) (s : LeePositionController K N) (out : Outputs K)
    (hi : s.initialized_params_ = true) (ha : s.controller_active_ = false) :
    CalculateRotorVelocities L s out
      = some (s, { out with rotor_velocities := List.replicate N (some 0) }) := by
  simp [CalculateRotorVelocities, hi, ha, ZeroXd, resizeXd_length]

theorem CalculateRotorVelocities_flags {K : Type} {N : Nat} [LinearOrderedField K]
    (L : Libm K) (s : LeePositionController K N) (out : Outputs K)
    (hi : s.initialized_params_ = true) :
    ∃ r, CalculateRotorVelocities L s out = some r
      ∧ r.1.initialized_params_ = true
      ∧ r.1.controller_active_ = s.controller_active_ := by
  cases ha : s.controller_active_
  · exact ⟨_, CalculateRotorVelocities_inactive L s out hi ha, hi, ha⟩
  · refine ⟨_, by simp only [CalculateRotorVelocities, hi, ha]; rfl, ?_, ?_⟩
    · simp only [ComputeDesiredAngularAcc]
      split_ifs <;> simp [hi]
    · simp only [ComputeDesiredAngularAcc]
      split_ifs <;> simp [ha]

theorem step_flags {K : Type} {N : Nat} [LinearOrderedField K] (L : Libm K)
    (s : LeePositionController K N) (c : Call K) (hi : s.initialized_params_ = true) :
    ∃ r, step L s c = some r ∧ r.1.initialized_params_ = true
      ∧ (s.controller_active_ = true → r.1.controller_active_ = true)
      ∧ (c.isSetTrajectoryPoint = true → r.1.controller_active_ = true)
      ∧ (c.isSetTrajectoryPoint = false → r.1.controller_active_ = s.controller_active_) := by
  cases c with
  | SetOdometry o =>
    refine ⟨_, rfl, hi, fun h => h, ?_, fun _ => rfl⟩
    intro h
    simp [Call.isSetTrajectoryPoint] at h
  | SetTrajectoryPoint t =>
    refine ⟨_, rfl, hi, fun _ => rfl, fun _ => rfl, ?_⟩
    intro h
    simp [Call.isSetTrajectoryPoint] at h
  | CalculateRotorVelocities out =>
    obtain ⟨r, hr, h1, h2⟩ := CalculateRotorVelocities_flags L s out hi
    refine ⟨(r.1, [r.2]), by simp [step, hr], h1, ?_, ?_, fun _ => h2⟩
    · intro h
      simpa [h2] using h
    · intro h
      simp [Call.isSetTrajectoryPoint] at h

theorem run_cons {K : Type} {N : Nat} [LinearOrderedField K] (L : Libm K)
    (s : LeePositionController K N) (c : Call K) (cs : List (Call K))
    (r : LeePositionController K N × List (Outputs K)) (h : step L s c = some r) :
    run L s (c :: cs) = (run L r.1 cs).map fun r2 => (r2.1, r.2 ++ r2.2) := by
  simp only [run, h]
  cases run L r.1 cs <;> rfl

theorem run_active {K : Type} {N : Nat} [LinearOrderedField K] (L : Libm K)
    (cs : List (Call K)) (s : LeePositionController K N)
    (hi : s.initialized_params_ = true) (ha : s.controller_active_ = true) :
    ∃ r, run L s cs = some r ∧ r.1.initialized_params_ = true
      ∧ r.1.controller_active_ = true := by
  induction cs generalizing s with
  | nil => exact ⟨_, rfl, hi, ha⟩
  | cons c cs ih =>
    obtain ⟨r, hr, h1, h2, -, -⟩ := step_flags L s c hi
    obtain ⟨r2, hr2, h3, h4⟩ := ih r.1 h1 (h2 ha)
    exact ⟨(r2.1, r.2 ++ r2.2), by rw [run_cons L s c cs r hr, hr2]; rfl, h3, h4⟩

theorem run_inactive {K : Type} {N : Nat} [LinearOrderedField K] (L : Libm K)
    (cs : List (Call K)) (s : LeePositionController K N)
    (hi : s.initialized_params_ = true) (ha : s.controller_active_ = false)
    (hc : ∀ c ∈ cs, c.isSetTrajectoryPoint = false) :
    ∃ r, run L s cs = some r ∧ r.1.initialized_params_ = true
      ∧ r.1.controller_active_ = false
      ∧ r.2.length = cs.countP Call.isCalculateRotorVelocities
      ∧ ∀ o ∈ r.2, o.rotor_velocities = List.replicate N (some 0) := by
  induction cs generalizing s with
  | nil => exact ⟨_, rfl, hi, ha, rfl, by simp⟩
  | cons c cs ih =>
    have hcs : ∀ c ∈ cs, c.isSetTrajectoryPoint = false :=
      fun c hc2 => hc c (List.mem_cons_of_mem _ hc2)
    cases c with
    | SetOdometry o =>
      obtain ⟨r2, hr2, h3, h4, h5, h6⟩ := ih (SetOdometry s o) hi ha hcs
      refine ⟨(r2.1, [] ++ r2.2), ?_, h3, h4, ?_, ?_⟩
      · rw [run_cons L s (Call.SetOdometry o) cs (SetOdometry s o, []) rfl, hr2]; rfl
      · simpa [Call.isCalculateRotorVelocities] using h5
      · simpa using h6
    | SetTrajectoryPoint t =>
      have := hc (Call.SetTrajectoryPoint t) (List.mem_cons_self _ _)
      simp [Call.isSetTrajectoryPoint] at this
    | CalculateRotorVelocities out =>
      obtain ⟨r2, hr2, h3, h4, h5, h6⟩ := ih s hi ha hcs
      have hstep : step L s (Call.CalculateRotorVelocities out)
          = some (s, [{ out with rotor_velocities := List.replicate N (some 0) }]) := by
        simp [step, CalculateRotorVelocities_inactive L s out hi ha]
      refine ⟨(r2.1, [{ out with rotor_velocities := List.replicate N (some 0) }] ++ r2.2),
        ?_, h3, h4, ?_, ?_⟩
      · rw [run_cons L s (Call.CalculateRotorVelocities out) cs _ hstep, hr2]; rfl
      · simp [Call.isCalculateRotorVelocities, h5]
      · intro o ho
        simp only [List.singleton_append, List.mem_cons] at ho
        rcases ho with rfl | ho
        · rfl
        · exact h6 o ho

/-! ## Where the desired attitude is NaN and where it is not -/

theorem b3_des_of_norm_eq_zero {K : Type} [LinearOrderedField K] (L : Libm K)
    (force : Vector3d K) (h : norm L force = 0) : b3_des L force = none := by
  simp [b3_des, h]

theorem b3_des_of_norm_ne_zero {K : Type} [LinearOrderedField K] (L : Libm K)
    (force : Vector3d K) (h : norm L force ≠ 0) :
    b3_des L force = some fun i => (-force) i / norm L force := by
  simp [b3_des, h]

theorem R_des_of_norm_eq_zero {K : Type} [LinearOrderedField K] (L : Libm K)
    (force velocity_W : Vector3d K) (h : norm L force = 0) :
    b2_des L force velocity_W = none ∧ R_des L force velocity_W = none := by
  simp [R_des, b2_des, b3_des_of_norm_eq_zero L force h]

theorem R_des_of_b3_des {K : Type} [LinearOrderedField K] (L : Libm K)
    (force velocity_W b3 : Vector3d K) (h : b3_des L force = some b3) :
    b2_des L force velocity_W = some (normalize L (cross b3 (b1_des L velocity_W)))
    ∧ R_des L force velocity_W
        = some (fromCols (cross (normalize L (cross b3 (b1_des L velocity_W))) b3)
            (normalize L (cross b3 (b1_des L velocity_W))) b3) := by
  simp [R_des, b2_des, h]

theorem ComputeDesiredAngularAcc_of_some {K : Type} {N : Nat} [LinearOrderedField K]
    (L : Libm K) (s : LeePositionController K N) (force : Vector3d K) (Rd : Matrix3d K)
    (h : R_des L force s.command_trajectory_.velocity_W = some Rd) :
    ComputeDesiredAngularAcc L s force
      = ({ s with
            angle_error := some (angle_error Rd s.odometry_.orientation.toRotationMatrix)
            angular_rate_error :=
              some (s.odometry_.angular_velocity
                - (s.odometry_.orientation.toRotationMatrix.transpose * Rd).mulVec
                    (angular_rate_des Rd s.Last_R_des s.dt))
            k_R := s.controller_parameters_.attitude_gain_
            k_omega := s.controller_parameters_.angular_rate_gain_ },
          some (- cwiseProduct (angle_error Rd s.odometry_.orientation.toRotationMatrix)
                  s.controller_parameters_.attitude_gain_
                - cwiseProduct
                    (s.odometry_.angular_velocity
                      - (s.odometry_.orientation.toRotationMatrix.transpose * Rd).mulVec
                          (angular_rate_des Rd s.Last_R_des s.dt))
                    s.controller_parameters_.angular_rate_gain_
                + cross s.odometry_.angular_velocity
                    (s.Inertia_hat.mulVec s.odometry_.angular_velocity))) := by
  simp only [ComputeDesiredAngularAcc, h]

theorem ComputeDesiredAngularAcc_of_none {K : Type} {N : Nat} [LinearOrderedField K]
    (L : Libm K) (s : LeePositionController K N) (force : Vector3d K)
    (h : R_des L force s.command_trajectory_.velocity_W = none) :
    ComputeDesiredAngularAcc L s force
      = ({ s with
            angle_error := none
            angular_rate_error := none
            k_R := s.controller_parameters_.attitude_gain_
            k_omega := s.controller_parameters_.angular_rate_gain_ },
          none) := by
  simp only [ComputeDesiredAngularAcc, h]
/-! ## The active call and what it leaves alone -/

theorem CalculateRotorVelocities_active {K : Type} {N : Nat} [LinearOrderedField K]
    (L : Libm K) (s : LeePositionController K N) (out : Outputs K)
    (hi : s.initialized_params_ = true) (ha : s.controller_active_ = true) :
    ∃ r, CalculateRotorVelocities L s out = some r
      ∧ r.2.rotor_velocities
          = (match (ComputeDesiredAngularAcc L s
                (ComputeDesiredForce s).force_control_input).2 with
            | some m =>
                (allocateRotorVelocities L
                  (moment_thrust_to_rotor_velocities
                    s.controller_parameters_.allocation_matrix_)
                  ![m 0, m 1, m 2,
                    - dot (ComputeDesiredForce s).force_control_input
                        (col s.odometry_.orientation.toRotationMatrix 2)]).map some
            | none => List.replicate N none)
      ∧ r.2.theta_esti = ![s.theta_diag_hat 0, s.theta_diag_hat 1, s.theta_diag_hat 2]
      ∧ r.2.theta_m_esti = ![s.theta_m_hat_R, s.theta_m_hat_R, s.theta_m_hat_R]
      ∧ r.1.angle_error
          = (ComputeDesiredAngularAcc L s (ComputeDesiredForce s).force_control_input).1.angle_error
      ∧ r.1.angular_rate_error
          = (ComputeDesiredAngularAcc L s
              (ComputeDesiredForce s).force_control_input).1.angular_rate_error
      ∧ r.2.error.orientation = r.1.angle_error.map (fun e => ![e 0, e 1, e 2])
      ∧ r.2.error.angular = r.1.angular_rate_error.map (fun e => ![e 0, e 1, e 2])
      ∧ r.1.index = (if s.index ≥ s.ICL_N then 0 else s.index) + 1
      ∧ r.1.moment_thrust_to_rotor_velocities_
          = moment_thrust_to_rotor_velocities s.controller_parameters_.allocation_matrix_ := by
  refine ⟨_, by simp only [CalculateRotorVelocities, hi, ha]; rfl, ?_⟩
  split_ifs <;> exact ⟨rfl, rfl, rfl, rfl, rfl, rfl, rfl, rfl, rfl⟩

theorem CalculateRotorVelocities_frame {K : Type} {N : Nat} [LinearOrderedField K]
    (L : Libm K) (s : LeePositionController K N) (out : Outputs K)
    (r : LeePositionController K N × Outputs K) (h : CalculateRotorVelocities L s out = some r) :
    r.1.Last_R_des = s.Last_R_des ∧ r.1.theta_diag_hat = s.theta_diag_hat
      ∧ r.1.theta_m_hat_R = s.theta_m_hat_R ∧ r.1.dt = s.dt
      ∧ r.1.Inertia_hat = s.Inertia_hat ∧ r.1.odometry_ = s.odometry_
      ∧ r.1.command_trajectory_ = s.command_trajectory_
      ∧ r.1.vehicle_parameters_ = s.vehicle_parameters_
      ∧ r.1.controller_parameters_ = s.controller_parameters_ := by
  have hi : s.initialized_params_ = true := by
    by_contra hn
    simp [CalculateRotorVelocities, hn] at h
  cases ha : s.controller_active_
  · rw [CalculateRotorVelocities_inactive L s out hi ha] at h
    cases h
    exact ⟨rfl, rfl, rfl, rfl, rfl, rfl, rfl, rfl, rfl⟩
  · simp only [CalculateRotorVelocities, hi, ha] at h
    split_ifs at h <;> cases h <;> exact ⟨rfl, rfl, rfl, rfl, rfl, rfl, rfl, rfl, rfl⟩

theorem run_frame {K : Type} {N : Nat} [LinearOrderedField K] (L : Libm K)
    (cs : List (Call K)) (s : LeePositionController K N)
    (hi : s.initialized_params_ = true) :
    ∃ r, run L s cs = some r ∧ r.1.initialized_params_ = true
      ∧ r.1.Last_R_des = s.Last_R_des ∧ r.1.theta_diag_hat = s.theta_diag_hat
      ∧ r.1.theta_m_hat_R = s.theta_m_hat_R ∧ r.1.dt = s.dt
      ∧ r.1.Inertia_hat = s.Inertia_hat := by
  induction cs generalizing s with
  | nil => exact ⟨_, rfl, hi, rfl, rfl, rfl, rfl, rfl⟩
  | cons c cs ih =>
    obtain ⟨q, hq, hqi, -, -, -⟩ := step_flags L s c hi
    have hfr : q.1.Last_R_des = s.Last_R_des ∧ q.1.theta_diag_hat = s.theta_diag_hat
        ∧ q.1.theta_m_hat_R = s.theta_m_hat_R ∧ q.1.dt = s.dt
        ∧ q.1.Inertia_hat = s.Inertia_hat := by
      cases c with
      | SetOdometry o => cases hq; exact ⟨rfl, rfl, rfl, rfl, rfl⟩
      | SetTrajectoryPoint t => cases hq; exact ⟨rfl, rfl, rfl, rfl, rfl⟩
      | CalculateRotorVelocities out =>
        simp only [step] at hq
        cases hc : CalculateRotorVelocities L s out with
        | none => simp [hc] at hq
        | some p =>
          simp only [hc, Option.some.injEq] at hq
          subst hq
          obtain ⟨h1, h2, h3, h4, h5, -⟩ := CalculateRotorVelocities_frame L s out p hc
          exact ⟨h1, h2, h3, h4, h5⟩
    obtain ⟨r, hr, hri, h1, h2, h3, h4, h5⟩ := ih q.1 hqi
    refine ⟨(r.1, q.2 ++ r.2), by rw [run_cons L s c cs q hq, hr]; rfl, hri, ?_, ?_, ?_, ?_, ?_⟩
    · exact h1.trans hfr.1
    · exact h2.trans hfr.2.1
    · exact h3.trans hfr.2.2.1
    · exact h4.trans hfr.2.2.2.1
    · exact h5.trans hfr.2.2.2.2

theorem newLeePositionController_members {K : Type} {N : Nat} [Field K]
    (A : Matrix (Fin 4) (Fin N) K) (raw : LeePositionController K N) :
    (newLeePositionController A raw).Last_R_des = 0
      ∧ (newLeePositionController A raw).theta_diag_hat = ![0, 0, 0]
      ∧ (newLeePositionController A raw).theta_m_hat_R = 0
      ∧ (newLeePositionController A raw).dt = 0.02
      ∧ (newLeePositionController A raw).Inertia_hat
          = !![0.034, 0, 0; 0, 0.045, 0; 0, 0, 0.098] :=
  ⟨rfl, rfl, rfl, rfl, rfl⟩

/-! ## C1: zero output before the first trajectory command -/

/-- C1. Starting from a freshly constructed controller, every sequence of calls without a
`SetTrajectoryPoint` call runs to completion, yields one output per `CalculateRotorVelocities`
call, and each of them returns the rotor-velocity vector of length `N` whose entries are all
zero, whatever odometry values were passed in. -/
theorem C1_zero_until_first_command {K : Type} {N : Nat} [LinearOrderedField K] (L : Libm K)
    (calculateAllocationMatrix : Matrix (Fin 4) (Fin N) K) (raw : LeePositionController K N)
    (calls : List (Call K)) (h : ∀ c ∈ calls, c.isSetTrajectoryPoint = false) :
    ∃ r, run L (newLeePositionController calculateAllocationMatrix raw) calls = some r
      ∧ r.2.length = calls.countP Call.isCalculateRotorVelocities
      ∧ ∀ o ∈ r.2, o.rotor_velocities.length = N ∧ ∀ x ∈ o.rotor_velocities, x = some 0 := by
  obtain ⟨hi, ha⟩ := newLeePositionController_flags calculateAllocationMatrix raw
  obtain ⟨r, hr, -, -, h5, h6⟩ := run_inactive L calls _ hi ha h
  refine ⟨r, hr, h5, fun o ho => ?_⟩
  rw [h6 o ho]
  exact ⟨List.length_replicate _ _, fun x hx => List.eq_of_mem_replicate hx⟩

/-- C1 at a concrete sequence: odometry, compute, odometry, compute on the example vehicle. -/
theorem C1_zero_until_first_command_witness :
    (∀ c ∈ [Call.SetOdometry (exampleOdometry ℚ),
          Call.CalculateRotorVelocities (exampleOutputs ℚ),
          Call.SetOdometry (exampleOdometry ℚ),
          Call.CalculateRotorVelocities (exampleOutputs ℚ)], c.isSetTrajectoryPoint = false)
    ∧ ∃ r, run ⟨id, fun _ _ => 0, id, id⟩
          (newLeePositionController (exampleAllocation ℚ) (exampleRaw ℚ))
          [Call.SetOdometry (exampleOdometry ℚ),
            Call.CalculateRotorVelocities (exampleOutputs ℚ),
            Call.SetOdometry (exampleOdometry ℚ),
            Call.CalculateRotorVelocities (exampleOutputs ℚ)] = some r
        ∧ r.2.length = [Call.SetOdometry (exampleOdometry ℚ),
            Call.CalculateRotorVelocities (exampleOutputs ℚ),
            Call.SetOdometry (exampleOdometry ℚ),
            Call.CalculateRotorVelocities (exampleOutputs ℚ)].countP
              Call.isCalculateRotorVelocities
        ∧ ∀ o ∈ r.2, o.rotor_velocities.length = 4 ∧ ∀ x ∈ o.rotor_velocities, x = some 0 :=
  ⟨by simp [Call.isSetTrajectoryPoint],
    C1_zero_until_first_command _ _ _ _ (by simp [Call.isSetTrajectoryPoint])⟩

/-! ## C10: the activation flag is a one-way gate -/

/-- C10. The activation flag is false in the freshly constructed controller; `SetTrajectoryPoint`
sets it; a call made in a state where it is set returns a state where it is set; hence every
call sequence that contains a `SetTrajectoryPoint` call runs to completion from the constructed
controller and ends in an active state. -/
theorem C10_activation_one_way {K : Type} {N : Nat} [LinearOrderedField K] (L : Libm K) :
    (∀ (A : Matrix (Fin 4) (Fin N) K) (raw : LeePositionController K N),
        (newLeePositionController A raw).controller_active_ = false)
    ∧ (∀ (s : LeePositionController K N) (t : EigenTrajectoryPoint K),
        (SetTrajectoryPoint s t).controller_active_ = true)
    ∧ (∀ (s : LeePositionController K N) (c : Call K)
        (r : LeePositionController K N × List (Outputs K)),
        s.controller_active_ = true → step L s c = some r → r.1.controller_active_ = true)
    ∧ (∀ (A : Matrix (Fin 4) (Fin N) K) (raw : LeePositionController K N)
        (before after : List (Call K)) (t : EigenTrajectoryPoint K),
        ∃ r, run L (newLeePositionController A raw)
            (before ++ Call.SetTrajectoryPoint t :: after) = some r
          ∧ r.1.controller_active_ = true) := by
  refine ⟨fun A raw => (newLeePositionController_flags A raw).2, fun _ _ => rfl, ?_, ?_⟩
  · intro s c r ha hr
    cases c with
    | SetOdometry o => cases hr; exact ha
    | SetTrajectoryPoint t => cases hr; rfl
    | CalculateRotorVelocities out =>
      simp only [step] at hr
      cases hc : CalculateRotorVelocities L s out with
      | none => simp [hc] at hr
      | some q =>
        simp only [hc, Option.some.injEq] at hr
        subst hr
        have hi : s.initialized_params_ = true := by
          by_contra hn
          simp [CalculateRotorVelocities, hn] at hc
        obtain ⟨q2, hq2, -, h2⟩ := CalculateRotorVelocities_flags L s out hi
        rw [hc] at hq2
        cases hq2
        simpa [ha] using h2
  · intro A raw before after t
    have hinit := (newLeePositionController_flags A raw).1
    generalize newLeePositionController A raw = s0 at hinit
    induction before generalizing s0 with
    | nil =>
      obtain ⟨r2, hr2, -, h4⟩ := run_active L after (SetTrajectoryPoint s0 t) hinit rfl
      exact ⟨(r2.1, [] ++ r2.2), by
        rw [List.nil_append, run_cons L s0 (Call.SetTrajectoryPoint t) after
          (SetTrajectoryPoint s0 t, []) rfl, hr2]
        rfl, h4⟩
    | cons c cs ih =>
      obtain ⟨r, hr, h1, -, -, -⟩ := step_flags L s0 c hinit
      obtain ⟨r2, hr2, h3⟩ := ih r.1 h1
      exact ⟨(r2.1, r.2 ++ r2.2), by
        rw [List.cons_append, run_cons L s0 c _ r hr, hr2]
        rfl, h3⟩

/-! ## The allocation of a finite command -/

theorem maxi_eq_max {K : Type} [LinearOrderedField K] (a b : K) : maxi a b = max a b := by
  unfold maxi
  split_ifs with h
  · exact (max_eq_right h.le).symm
  · exact (max_eq_left (not_lt.mp h)).symm

theorem zipWith_replicate_length {α β γ : Type} (f : α → β → γ) (b : β) (l : List α) :
    List.zipWith f l (List.replicate l.length b) = l.map fun a => f a b := by
  induction l with
  | nil => rfl
  | cons a l ih => simp [List.replicate_succ, ih]

theorem allocateRotorVelocities_eq {K : Type} {N : Nat} [LinearOrderedField K] (L : Libm K)
    (P : Matrix (Fin N) (Fin 4) K) (moment_thrust : Vector4d K) :
    allocateRotorVelocities L P moment_thrust
      = List.ofFn fun i => L.sqrt (max 0 (P.mulVec moment_thrust i)) := by
  simp only [allocateRotorVelocities, cwiseMax, cwiseSqrt, ZeroXd, zipWith_replicate_length,
    List.map_map, List.map_ofFn]
  congr 1
  funext i
  simp [maxi_eq_max, max_comm]

/-! ## C3: the desired force -/

/-- C3. With `p`, `v`, `R` the position, body velocity and rotation matrix of the odometry,
`p_d`, `v_d`, `a_d` the trajectory command, `k_x`, `k_v` the gains, `m` the mass and `g` the
gravity, `ComputeDesiredForce` outputs `position_error = p − p_d`,
`velocity_error = R·v − v_d` and, component by component,
`force = position_error ⊙ k_x + velocity_error ⊙ k_v − m·g·(0,0,1) − m·a_d`. -/
theorem C3_desired_force {K : Type} {N : Nat} [Field K] (s : LeePositionController K N) :
    (∀ i, (ComputeDesiredForce s).position_error i
        = s.odometry_.position i - s.command_trajectory_.position_W i)
    ∧ (∀ i, (ComputeDesiredForce s).velocity_error i
        = (∑ j, s.odometry_.orientation.toRotationMatrix i j * s.odometry_.velocity j)
          - s.command_trajectory_.velocity_W i)
    ∧ (∀ i, (ComputeDesiredForce s).force_control_input i
        = (ComputeDesiredForce s).position_error i * s.controller_parameters_.position_gain_ i
          + (ComputeDesiredForce s).velocity_error i * s.controller_parameters_.velocity_gain_ i
          - s.vehicle_parameters_.mass_ * s.vehicle_parameters_.gravity_
              * (if i = 2 then 1 else 0)
          - s.vehicle_parameters_.mass_ * s.command_trajectory_.acceleration_W i) := by
  refine ⟨fun i => rfl, fun i => rfl, fun i => ?_⟩
  simp only [ComputeDesiredForce, cwiseProduct, Pi.sub_apply, Pi.add_apply, Pi.smul_apply,
    smul_eq_mul]
  fin_cases i <;> simp

/-! ## C5: no attitude error when the attitude is the desired one -/

theorem angle_error_self {K : Type} [Field K] (R : Matrix3d K) : angle_error R R = 0 := by
  ext i
  fin_cases i <;> simp [angle_error, vectorFromSkewMatrix]

/-- C5. For every pair of 3×3 matrices with `R = R_des` the attitude error vector
`vee (0.5 · (R_desᵀ·R − Rᵀ·R_des))` is zero; and `ComputeDesiredAngularAcc` stores the zero
vector in `angle_error` whenever the rotation matrix of the odometry is `R` and the desired
rotation matrix it builds is the matrix `R_des` (a matrix of real numbers: NaN equals
nothing). -/
theorem C5_angle_error_zero {K : Type} [LinearOrderedField K] (R Rd : Matrix3d K)
    (h : R = Rd) :
    angle_error Rd R = 0
    ∧ ∀ (N : Nat) (L : Libm K) (s : LeePositionController K N) (force : Vector3d K),
        s.odometry_.orientation.toRotationMatrix = R →
        R_des L force s.command_trajectory_.velocity_W = some Rd →
        (ComputeDesiredAngularAcc L s force).1.angle_error = some 0 := by
  subst h
  refine ⟨angle_error_self R, fun N L s force h1 h2 => ?_⟩
  rw [ComputeDesiredAngularAcc_of_some L s force R h2, h1]
  exact congrArg some (angle_error_self R)

/-- C5 at the identity attitude. -/
theorem C5_angle_error_zero_witness :
    (1 : Matrix3d ℚ) = 1
    ∧ (angle_error (1 : Matrix3d ℚ) 1 = 0
      ∧ ∀ (N : Nat) (L : Libm ℚ) (s : LeePositionController ℚ N) (force : Vector3d ℚ),
          s.odometry_.orientation.toRotationMatrix = 1 →
          R_des L force s.command_trajectory_.velocity_W = some 1 →
          (ComputeDesiredAngularAcc L s force).1.angle_error = some 0) :=
  ⟨rfl, C5_angle_error_zero 1 1 rfl⟩

/-! ## C7: the pseudo-inverse is a right inverse of the allocation matrix -/

theorem mul_inverse_cancel {K : Type} [Field K] (M : Matrix4d K) (h : M.det ≠ 0) :
    M * inverse M = 1 := by
  rw [inverse, Matrix.mul_smul, Matrix.mul_adjugate, smul_smul, inv_mul_cancel₀ h, one_smul]

/-- C7. For every 4×N allocation matrix `A` with `A·Aᵀ` invertible, the matrix
`P = Aᵀ·(A·Aᵀ)⁻¹` satisfies `A·P = 1`, and `P` is the matrix that an active call of
`CalculateRotorVelocities` on a controller holding `A` stores in
`moment_thrust_to_rotor_velocities_` and applies to the command. -/
theorem C7_pseudo_inverse {K : Type} {N : Nat} [LinearOrderedField K]
    (A : Matrix (Fin 4) (Fin N) K) (h : IsUnit (A * A.transpose)) :
    A * moment_thrust_to_rotor_velocities A = 1
    ∧ ∀ (L : Libm K) (s : LeePositionController K N) (out : Outputs K),
        s.controller_parameters_.allocation_matrix_ = A →
        s.initialized_params_ = true → s.controller_active_ = true →
        ∃ r, CalculateRotorVelocities L s out = some r
          ∧ r.1.moment_thrust_to_rotor_velocities_ = moment_thrust_to_rotor_velocities A
          ∧ A * r.1.moment_thrust_to_rotor_velocities_ = 1 := by
  have hdet : (A * A.transpose).det ≠ 0 :=
    ((Matrix.isUnit_iff_isUnit_det _).mp h).ne_zero
  have hP : A * moment_thrust_to_rotor_velocities A = 1 := by
    rw [moment_thrust_to_rotor_velocities, ← Matrix.mul_assoc]
    exact mul_inverse_cancel _ hdet
  refine ⟨hP, fun L s out hA hi ha => ?_⟩
  subst hA
  obtain ⟨r, hr, -, -, -, -, -, -, -, -, h9⟩ := CalculateRotorVelocities_active L s out hi ha
  exact ⟨r, hr, h9, by rw [h9]; exact hP⟩

/-- C7 at the allocation matrix of the example vehicle. -/
theorem C7_pseudo_inverse_witness :
    IsUnit (exampleAllocation ℚ * (exampleAllocation ℚ).transpose)
    ∧ (exampleAllocation ℚ * moment_thrust_to_rotor_velocities (exampleAllocation ℚ) = 1
      ∧ ∀ (L : Libm ℚ) (s : LeePositionController ℚ 4) (out : Outputs ℚ),
          s.controller_parameters_.allocation_matrix_ = exampleAllocation ℚ →
          s.initialized_params_ = true → s.controller_active_ = true →
          ∃ r, CalculateRotorVelocities L s out = some r
            ∧ r.1.moment_thrust_to_rotor_velocities_
                = moment_thrust_to_rotor_velocities (exampleAllocation ℚ)
            ∧ exampleAllocation ℚ * r.1.moment_thrust_to_rotor_velocities_ = 1) :=
  have hu : IsUnit (exampleAllocation ℚ * (exampleAllocation ℚ).transpose) := by
    have e : exampleAllocation ℚ * (exampleAllocation ℚ).transpose
        = Matrix.diagonal ![2, 2, 4, 4] := by
      ext i j
      rw [Matrix.mul_apply]
      simp only [Matrix.transpose_apply, Fin.sum_univ_four]
      fin_cases i <;> fin_cases j <;>
        simp [exampleAllocation, Matrix.vecHead, Matrix.vecTail] <;> norm_num
    rw [e, Matrix.isUnit_iff_isUnit_det, Matrix.det_diagonal]
    simp [Fin.prod_univ_four]
  ⟨hu, C7_pseudo_inverse (exampleAllocation ℚ) hu⟩

/-! ## C4: the desired rotation matrix is a rotation -/

theorem fromCols_orthonormal {K : Type} [Field K] (b2 b3 : Vector3d K)
    (h22 : dot b2 b2 = 1) (h33 : dot b3 b3 = 1) (h23 : dot b2 b3 = 0) :
    (fromCols (cross b2 b3) b2 b3).transpose * fromCols (cross b2 b3) b2 b3 = 1
    ∧ (fromCols (cross b2 b3) b2 b3).det = 1 := by
  simp only [dot] at h22 h33 h23
  have hL : (b2 1 * b3 2 - b2 2 * b3 1) * (b2 1 * b3 2 - b2 2 * b3 1)
      + (b2 2 * b3 0 - b2 0 * b3 2) * (b2 2 * b3 0 - b2 0 * b3 2)
      + (b2 0 * b3 1 - b2 1 * b3 0) * (b2 0 * b3 1 - b2 1 * b3 0) = 1 := by
    linear_combination (b3 0 * b3 0 + b3 1 * b3 1 + b3 2 * b3 2) * h22 + h33
      - (b2 0 * b3 0 + b2 1 * b3 1 + b2 2 * b3 2) * h23
  constructor
  · ext i j
    rw [Matrix.mul_apply]
    simp only [Matrix.transpose_apply, Fin.sum_univ_three]
    fin_cases i <;> fin_cases j <;> simp [fromCols, cross]
    · linear_combination hL
    · ring
    · ring
    · ring
    · linear_combination h22
    · linear_combination h23
    · ring
    · linear_combination h23
    · linear_combination h33
  · rw [Matrix.det_fin_three]
    simp [fromCols, cross]
    linear_combination hL

theorem squaredNorm_pos {K : Type} [LinearOrderedField K] (c : Vector3d K) (hc : c ≠ 0) :
    0 < squaredNorm c := by
  by_contra hle
  simp only [squaredNorm, dot, not_lt] at hle
  have h0 := mul_self_nonneg (c 0)
  have h1 := mul_self_nonneg (c 1)
  have h2 := mul_self_nonneg (c 2)
  have e0 : c 0 = 0 := mul_self_eq_zero.mp (by linarith)
  have e1 : c 1 = 0 := mul_self_eq_zero.mp (by linarith)
  have e2 : c 2 = 0 := mul_self_eq_zero.mp (by linarith)
  apply hc
  funext i
  fin_cases i
  · exact e0
  · exact e1
  · exact e2

theorem b3_des_unit (atan2 : ℝ → ℝ → ℝ) (cos sin : ℝ → ℝ) (force : Vector3d ℝ)
    (hf : norm ⟨Real.sqrt, atan2, cos, sin⟩ force ≠ 0) :
    dot (fun i => (-force) i / norm ⟨Real.sqrt, atan2, cos, sin⟩ force)
      (fun i => (-force) i / norm ⟨Real.sqrt, atan2, cos, sin⟩ force) = 1 := by
  simp only [norm] at hf
  have hpos : 0 < squaredNorm force := Real.sqrt_ne_zero'.mp hf
  have hsq : Real.sqrt (squaredNorm force) * Real.sqrt (squaredNorm force) = squaredNorm force :=
    Real.mul_self_sqrt hpos.le
  simp only [dot, norm, Pi.neg_apply, div_mul_div_comm, neg_mul_neg, ← add_div, hsq]
  exact div_self hpos.ne'

theorem normalize_unit (atan2 : ℝ → ℝ → ℝ) (cos sin : ℝ → ℝ) (c : Vector3d ℝ) (hc : c ≠ 0) :
    dot (normalize ⟨Real.sqrt, atan2, cos, sin⟩ c) (normalize ⟨Real.sqrt, atan2, cos, sin⟩ c) = 1
    ∧ ∀ w, dot c w = 0 → dot (normalize ⟨Real.sqrt, atan2, cos, sin⟩ c) w = 0 := by
  have hpos : 0 < squaredNorm c := squaredNorm_pos c hc
  have hsq : Real.sqrt (squaredNorm c) * Real.sqrt (squaredNorm c) = squaredNorm c :=
    Real.mul_self_sqrt hpos.le
  simp only [normalize, hpos, if_true]
  constructor
  · simp only [dot, div_mul_div_comm, ← add_div, hsq]
    exact div_self hpos.ne'
  · intro w hw
    simp only [dot] at hw
    simp only [dot, div_mul_eq_mul_div, ← add_div, hw, zero_div]

theorem cross_dot_left {K : Type} [Field K] (a b : Vector3d K) : dot (cross a b) a = 0 := by
  simp [dot, cross]
  ring

theorem eq_smul_of_cross_eq_zero {K : Type} [Field K] (a b : Vector3d K) (ha : dot a a = 1)
    (h : cross a b = 0) : b = dot a b • a := by
  have c0 := congrFun h 0
  have c1 := congrFun h 1
  have c2 := congrFun h 2
  simp [cross] at c0 c1 c2
  simp only [dot] at ha ⊢
  funext i
  fin_cases i <;> simp
  · linear_combination (-b 0) * ha - (a 1) * c2 + (a 2) * c1
  · linear_combination (-b 1) * ha + (a 0) * c2 - (a 2) * c0
  · linear_combination (-b 2) * ha - (a 0) * c1 + (a 1) * c0

theorem arg_one_zero : Complex.arg ⟨1, 0⟩ = 0 := by
  have : (⟨1, 0⟩ : ℂ) = 1 := by apply Complex.ext <;> simp
  rw [this, Complex.arg_one]

theorem R_des_is_rotation (atan2 : ℝ → ℝ → ℝ) (cos sin : ℝ → ℝ)
    (force velocity_W : Vector3d ℝ)
    (hf : norm ⟨Real.sqrt, atan2, cos, sin⟩ force ≠ 0)
    (hp : ∀ b3, b3_des ⟨Real.sqrt, atan2, cos, sin⟩ force = some b3 →
      ¬ ∃ t : ℝ, b1_des ⟨Real.sqrt, atan2, cos, sin⟩ velocity_W = t • b3) :
    ∃ b2 b3 Rd,
      b3_des ⟨Real.sqrt, atan2, cos, sin⟩ force = some b3
      ∧ b2_des ⟨Real.sqrt, atan2, cos, sin⟩ force velocity_W = some b2
      ∧ R_des ⟨Real.sqrt, atan2, cos, sin⟩ force velocity_W = some Rd
      ∧ (∀ i, b3 i = - force i / norm ⟨Real.sqrt, atan2, cos, sin⟩ force)
      ∧ b2 = normalize ⟨Real.sqrt, atan2, cos, sin⟩
              (cross b3 (b1_des ⟨Real.sqrt, atan2, cos, sin⟩ velocity_W))
      ∧ (∀ i, Rd i 0 = cross b2 b3 i ∧ Rd i 1 = b2 i ∧ Rd i 2 = b3 i)
      ∧ Rd.transpose * Rd = 1
      ∧ Rd.det = 1 := by
  have hb3 := b3_des_of_norm_ne_zero ⟨Real.sqrt, atan2, cos, sin⟩ force hf
  obtain ⟨hb2, hRd⟩ := R_des_of_b3_des ⟨Real.sqrt, atan2, cos, sin⟩ force velocity_W _ hb3
  have h33 := b3_des_unit atan2 cos sin force hf
  have hc : cross (fun i => (-force) i / norm ⟨Real.sqrt, atan2, cos, sin⟩ force)
      (b1_des ⟨Real.sqrt, atan2, cos, sin⟩ velocity_W) ≠ 0 :=
    fun h0 => hp _ hb3 ⟨_, eq_smul_of_cross_eq_zero _ _ h33 h0⟩
  obtain ⟨h22, horth⟩ := normalize_unit atan2 cos sin _ hc
  have h23 := horth _ (cross_dot_left _ _)
  obtain ⟨ho, hd⟩ := fromCols_orthonormal _ _ h22 h33 h23
  exact ⟨_, _, _, hb3, hb2, hRd, fun i => rfl, rfl, fun i => ⟨rfl, rfl, rfl⟩, ho, hd⟩

theorem norm_level_force_ne_zero (atan2 : ℝ → ℝ → ℝ) (cos sin : ℝ → ℝ) :
    norm ⟨Real.sqrt, atan2, cos, sin⟩ ![0, 0, -10] ≠ 0 := by
  simp only [norm, squaredNorm, dot]
  rw [Real.sqrt_ne_zero']
  simp

theorem level_not_parallel (b3 : Vector3d ℝ)
    (hb : b3_des ⟨Real.sqrt, fun y x => Complex.arg ⟨x, y⟩, Real.cos, Real.sin⟩ ![0, 0, -10]
      = some b3) :
    ¬ ∃ t : ℝ,
      b1_des ⟨Real.sqrt, fun y x => Complex.arg ⟨x, y⟩, Real.cos, Real.sin⟩ ![1, 0, 0]
        = t • b3 := by
  rw [b3_des_of_norm_ne_zero _ _ (norm_level_force_ne_zero _ _ _)] at hb
  cases hb
  rintro ⟨t, ht⟩
  have h0 := congrFun ht 0
  simp [b1_des, yaw, arg_one_zero] at h0

/-- C4. For every desired force of non-zero norm and every desired velocity such that
`b1_des = (cos yaw, sin yaw, 0)` is not parallel to `b3_des = −force/‖force‖` (not a scalar
multiple of it), `b3_des`, `b2_des` and `R_des` of `ComputeDesiredAngularAcc` are free of
NaN, `b3_des = −force/‖force‖`, `b2_des = normalize (b3_des × b1_des)`,
the columns of `R_des` are `b2_des × b3_des`, `b2_des`, `b3_des`, and `R_des` satisfies
`R_desᵀ·R_des = 1` and `det R_des = 1`. -/
theorem C4_desired_rotation_is_rotation (atan2 : ℝ → ℝ → ℝ) (cos sin : ℝ → ℝ)
    (force velocity_W : Vector3d ℝ)
    (hf : norm ⟨Real.sqrt, atan2, cos, sin⟩ force ≠ 0)
    (hp : ∀ b3, b3_des ⟨Real.sqrt, atan2, cos, sin⟩ force = some b3 →
      ¬ ∃ t : ℝ, b1_des ⟨Real.sqrt, atan2, cos, sin⟩ velocity_W = t • b3) :
    ∃ b2 b3 Rd,
      b3_des ⟨Real.sqrt, atan2, cos, sin⟩ force = some b3
      ∧ b2_des ⟨Real.sqrt, atan2, cos, sin⟩ force velocity_W = some b2
      ∧ R_des ⟨Real.sqrt, atan2, cos, sin⟩ force velocity_W = some Rd
      ∧ (∀ i, b3 i = - force i / norm ⟨Real.sqrt, atan2, cos, sin⟩ force)
      ∧ b2 = normalize ⟨Real.sqrt, atan2, cos, sin⟩
              (cross b3 (b1_des ⟨Real.sqrt, atan2, cos, sin⟩ velocity_W))
      ∧ (∀ i, Rd i 0 = cross b2 b3 i ∧ Rd i 1 = b2 i ∧ Rd i 2 = b3 i)
      ∧ Rd.transpose * Rd = 1
      ∧ Rd.det = 1 :=
  R_des_is_rotation atan2 cos sin force velocity_W hf hp

/-- C4 at the hover force `(0, 0, −10)` with desired velocity `(1, 0, 0)`. -/
theorem C4_desired_rotation_is_rotation_witness :
    let L : Libm ℝ := ⟨Real.sqrt, fun y x => Complex.arg ⟨x, y⟩, Real.cos, Real.sin⟩
    norm L ![0, 0, -10] ≠ 0
    ∧ (∀ b3, b3_des L ![0, 0, -10] = some b3 → ¬ ∃ t : ℝ, b1_des L ![1, 0, 0] = t • b3)
    ∧ ∃ b2 b3 Rd,
        b3_des L ![0, 0, -10] = some b3
        ∧ b2_des L ![0, 0, -10] ![1, 0, 0] = some b2
        ∧ R_des L ![0, 0, -10] ![1, 0, 0] = some Rd
        ∧ (∀ i, b3 i = - (![0, 0, -10] : Vector3d ℝ) i / norm L ![0, 0, -10])
        ∧ b2 = normalize L (cross b3 (b1_des L ![1, 0, 0]))
        ∧ (∀ i, Rd i 0 = cross b2 b3 i ∧ Rd i 1 = b2 i ∧ Rd i 2 = b3 i)
        ∧ Rd.transpose * Rd = 1
        ∧ Rd.det = 1 :=
  ⟨norm_level_force_ne_zero _ _ _, level_not_parallel,
    C4_desired_rotation_is_rotation (fun y x => Complex.arg ⟨x, y⟩) Real.cos Real.sin
      ![0, 0, -10] ![1, 0, 0] (norm_level_force_ne_zero _ _ _) level_not_parallel⟩

/-! ## C6: when the attitude error vanishes -/

theorem symmetric_rotation (Q : Matrix3d ℝ) (hs : Q.transpose = Q) (ho : Q.transpose * Q = 1)
    (hd : Q.det = 1) : Q = 1 ∨ Q.trace = -1 := by
  have hQQ : Q * Q = 1 := by rw [hs] at ho; exact ho
  have hadj : Q.adjugate = Q := by
    have h1 : Q * Q.adjugate = 1 := by rw [Matrix.mul_adjugate, hd, one_smul]
    calc Q.adjugate = (Q * Q) * Q.adjugate := by rw [hQQ, Matrix.one_mul]
      _ = Q * (Q * Q.adjugate) := Matrix.mul_assoc _ _ _
      _ = Q := by rw [h1, Matrix.mul_one]
  by_cases ht : Q.trace = -1
  · exact Or.inr ht
  left
  have ht2 : 1 + (Q 0 0 + Q 1 1 + Q 2 2) ≠ 0 := by
    rw [Matrix.trace_fin_three] at ht
    intro h
    exact ht (by linarith)
  have cancel : ∀ x : ℝ, (1 + (Q 0 0 + Q 1 1 + Q 2 2)) * x = 0 → x = 0 :=
    fun x hx => (mul_eq_zero.mp hx).resolve_left ht2
  have s10 : Q 1 0 = Q 0 1 := by have := congrFun (congrFun hs 0) 1; simpa using this
  have s20 : Q 2 0 = Q 0 2 := by have := congrFun (congrFun hs 0) 2; simpa using this
  have s21 : Q 2 1 = Q 1 2 := by have := congrFun (congrFun hs 1) 2; simpa using this
  have q := fun i j => congrFun (congrFun hQQ i) j
  have a := fun i j => congrFun (congrFun hadj i) j
  simp only [Matrix.mul_apply, Fin.sum_univ_three] at q
  rw [Matrix.adjugate_fin_three] at a
  have q00 := q 0 0
  have q01 := q 0 1
  have q02 := q 0 2
  have q11 := q 1 1
  have q12 := q 1 2
  have q22 := q 2 2
  have a00 := a 0 0
  have a01 := a 0 1
  have a02 := a 0 2
  have a11 := a 1 1
  have a12 := a 1 2
  have a22 := a 2 2
  simp [s10, s20, s21] at q00 q01 q02 q11 q12 q22 a00 a01 a02 a11 a12 a22
  have e00 : Q 0 0 - 1 = 0 := cancel _ (by linear_combination q00 + a11 + a22)
  have e01 : Q 0 1 = 0 := cancel _ (by linear_combination q01 - a01)
  have e02 : Q 0 2 = 0 := cancel _ (by linear_combination q02 - a02)
  have e11 : Q 1 1 - 1 = 0 := cancel _ (by linear_combination q11 + a00 + a22)
  have e12 : Q 1 2 = 0 := cancel _ (by linear_combination q12 - a12)
  have e22 : Q 2 2 - 1 = 0 := cancel _ (by linear_combination q22 + a00 + a11)
  ext i j
  fin_cases i <;> fin_cases j <;> simp
  · linarith
  · exact e01
  · exact e02
  · rw [s10]; exact e01
  · linarith
  · exact e12
  · rw [s20]; exact e02
  · rw [s21]; exact e12
  · linarith

theorem halfTurnX_rotation :
    (halfTurnX ℝ).transpose * halfTurnX ℝ = 1 ∧ (halfTurnX ℝ).det = 1
    ∧ angle_error 1 (halfTurnX ℝ) = 0 ∧ halfTurnX ℝ ≠ 1
    ∧ ((1 : Matrix3d ℝ).transpose * halfTurnX ℝ).trace = -1 := by
  refine ⟨?_, ?_, ?_, ?_, ?_⟩
  · ext i j
    rw [Matrix.mul_apply]
    simp only [Matrix.transpose_apply, Fin.sum_univ_three]
    fin_cases i <;> fin_cases j <;> simp [halfTurnX, Matrix.vecHead, Matrix.vecTail]
  · rw [Matrix.det_fin_three]
    simp [halfTurnX]
  · ext i
    simp only [angle_error, vectorFromSkewMatrix, Matrix.transpose_one, Matrix.one_mul,
      Matrix.mul_one]
    fin_cases i <;> simp [halfTurnX, Matrix.vecHead, Matrix.vecTail]
  · intro h
    have := congrFun (congrFun h 1) 1
    simp [halfTurnX] at this
    norm_num at this
  · rw [Matrix.trace_fin_three]
    simp [halfTurnX]

theorem angle_error_eq_zero_iff {K : Type} [Field K] [CharZero K] (Rd R : Matrix3d K) :
    angle_error Rd R = 0 ↔ (Rd.transpose * R).transpose = Rd.transpose * R := by
  have hT : R.transpose * Rd = (Rd.transpose * R).transpose := by
    rw [Matrix.transpose_mul, Matrix.transpose_transpose]
  have h05 : (0.5 : K) ≠ 0 := by norm_num
  simp only [angle_error, hT]
  generalize Rd.transpose * R = Q
  constructor
  · intro h
    have h0 := congrFun h 0
    have h1 := congrFun h 1
    have h2 := congrFun h 2
    simp only [vectorFromSkewMatrix, Matrix.smul_apply, Matrix.sub_apply, Matrix.transpose_apply,
      Matrix.cons_val_zero, Matrix.cons_val_one, Matrix.cons_val_two, Matrix.head_cons,
      Matrix.tail_cons, Pi.zero_apply, smul_eq_mul, mul_eq_zero, h05, false_or, sub_eq_zero]
      at h0 h1 h2
    ext i j
    rw [Matrix.transpose_apply]
    fin_cases i <;> fin_cases j
    · rfl
    · exact h2
    · exact h1.symm
    · exact h2.symm
    · rfl
    · exact h0
    · exact h1
    · exact h0.symm
    · rfl
  · intro h
    rw [h, sub_self, smul_zero]
    ext i
    fin_cases i <;> rfl

theorem R_des_down (atan2 : ℝ → ℝ → ℝ) (cos sin : ℝ → ℝ) (g : ℝ) (hg : 0 < g)
    (velocity_W : Vector3d ℝ)
    (hb1 : b1_des ⟨Real.sqrt, atan2, cos, sin⟩ velocity_W = ![1, 0, 0]) :
    R_des ⟨Real.sqrt, atan2, cos, sin⟩ ![0, 0, -g] velocity_W = some 1 := by
  have hs : Real.sqrt (g * g) = g := Real.sqrt_mul_self hg.le
  have hn : norm ⟨Real.sqrt, atan2, cos, sin⟩ ![0, 0, -g] = g := by
    simp [norm, squaredNorm, dot, hs]
  have hb3 : b3_des ⟨Real.sqrt, atan2, cos, sin⟩ ![0, 0, -g] = some ![0, 0, 1] := by
    rw [b3_des_of_norm_ne_zero _ _ (by rw [hn]; exact hg.ne'), hn]
    congr 1
    funext i
    fin_cases i <;> simp [hg.ne']
  rw [(R_des_of_b3_des _ _ velocity_W _ hb3).2, hb1]
  have hb2 : normalize ⟨Real.sqrt, atan2, cos, sin⟩ (cross ![0, 0, 1] ![1, 0, 0])
      = ![0, 1, 0] := by
    funext i
    fin_cases i <;> simp [normalize, cross, squaredNorm, dot]
  rw [hb2]
  congr 1
  ext i j
  fin_cases i <;> fin_cases j <;> simp [fromCols, cross]

theorem R_des_level :
    R_des ⟨Real.sqrt, fun y x => Complex.arg ⟨x, y⟩, Real.cos, Real.sin⟩ ![0, 0, -10] ![1, 0, 0]
      = some 1 :=
  R_des_down _ _ _ 10 (by norm_num) _ (by simp [b1_des, yaw, arg_one_zero])

theorem halfTurnX_eq_toRotationMatrix :
    (Quaterniond.mk 0 1 0 0 : Quaterniond ℝ).toRotationMatrix = halfTurnX ℝ := by
  ext i j
  fin_cases i <;> fin_cases j <;> simp [Quaterniond.toRotationMatrix, halfTurnX] <;> norm_num

/-- The two matrices of the counterexample to C6 occur in the code: a vehicle turned upside
down about its x axis (orientation quaternion `(w, x, y, z) = (0, 1, 0, 0)`), commanded to
head along x with the desired force `(0, 0, −10)`, gets the attitude error zero from
`ComputeDesiredAngularAcc` although its attitude is not the desired one. -/
theorem ComputeDesiredAngularAcc_upside_down {N : Nat} (s : LeePositionController ℝ N)
    (ho : s.odometry_.orientation = ⟨0, 1, 0, 0⟩)
    (hv : s.command_trajectory_.velocity_W = ![1, 0, 0]) :
    (ComputeDesiredAngularAcc ⟨Real.sqrt, fun y x => Complex.arg ⟨x, y⟩, Real.cos, Real.sin⟩
        s ![0, 0, -10]).1.angle_error = some 0
    ∧ some s.odometry_.orientation.toRotationMatrix
        ≠ R_des ⟨Real.sqrt, fun y x => Complex.arg ⟨x, y⟩, Real.cos, Real.sin⟩
            ![0, 0, -10] s.command_trajectory_.velocity_W := by
  have hRd : R_des ⟨Real.sqrt, fun y x => Complex.arg ⟨x, y⟩, Real.cos, Real.sin⟩
      ![0, 0, -10] s.command_trajectory_.velocity_W = some 1 := by
    rw [hv]
    exact R_des_level
  rw [ComputeDesiredAngularAcc_of_some _ s _ 1 hRd, hRd, ho, halfTurnX_eq_toRotationMatrix]
  refine ⟨congrArg some halfTurnX_rotation.2.2.1, fun h => ?_⟩
  exact halfTurnX_rotation.2.2.2.1 (Option.some.inj h)

/-- C6 as stated fails: the identity and the half-turn about the x axis are two different
rotation matrices with zero attitude error. -/
theorem C6_counterexample :
    ¬ ∀ (R Rd : Matrix3d ℝ), R.transpose * R = 1 → R.det = 1 →
        Rd.transpose * Rd = 1 → Rd.det = 1 → angle_error Rd R = 0 → R = Rd := by
  intro h
  obtain ⟨h1, h2, h3, h4, -⟩ := halfTurnX_rotation
  exact h4 (h (halfTurnX ℝ) 1 h1 h2 (by simp) (by simp) h3)

/-- C6, amended. For all rotation matrices `R` and `R_des`, the attitude error vector
`vee (0.5 · (R_desᵀ·R − Rᵀ·R_des))` is zero only if `R = R_des` or the relative rotation
`R_desᵀ·R` is a half-turn, that is, symmetric with trace −1. -/
theorem C6_zero_error_only_if_equal_or_half_turn (R Rd : Matrix3d ℝ)
    (hR : R.transpose * R = 1) (hdR : R.det = 1)
    (hRd : Rd.transpose * Rd = 1) (hdRd : Rd.det = 1)
    (h : angle_error Rd R = 0) :
    R = Rd
    ∨ ((Rd.transpose * R).transpose = Rd.transpose * R ∧ (Rd.transpose * R).trace = -1) := by
  have hs := (angle_error_eq_zero_iff Rd R).mp h
  have hRd2 : Rd * Rd.transpose = 1 := Matrix.mul_eq_one_comm.mp hRd
  have ho : (Rd.transpose * R).transpose * (Rd.transpose * R) = 1 := by
    rw [Matrix.transpose_mul, Matrix.transpose_transpose, Matrix.mul_assoc,
      ← Matrix.mul_assoc Rd, hRd2, Matrix.one_mul, hR]
  have hd : (Rd.transpose * R).det = 1 := by
    rw [Matrix.det_mul, Matrix.det_transpose, hdRd, hdR, one_mul]
  rcases symmetric_rotation _ hs ho hd with h1 | h1
  · left
    calc R = (Rd * Rd.transpose) * R := by rw [hRd2, Matrix.one_mul]
      _ = Rd * (Rd.transpose * R) := Matrix.mul_assoc _ _ _
      _ = Rd := by rw [h1, Matrix.mul_one]
  · exact Or.inr ⟨hs, h1⟩

/-- C6, amended, at the half-turn about the x axis against the identity: the second
alternative occurs. -/
theorem C6_zero_error_only_if_equal_or_half_turn_witness :
    (halfTurnX ℝ).transpose * halfTurnX ℝ = 1 ∧ (halfTurnX ℝ).det = 1
    ∧ (1 : Matrix3d ℝ).transpose * 1 = 1 ∧ (1 : Matrix3d ℝ).det = 1
    ∧ angle_error 1 (halfTurnX ℝ) = 0
    ∧ (halfTurnX ℝ = 1
      ∨ (((1 : Matrix3d ℝ).transpose * halfTurnX ℝ).transpose
            = (1 : Matrix3d ℝ).transpose * halfTurnX ℝ
          ∧ ((1 : Matrix3d ℝ).transpose * halfTurnX ℝ).trace = -1)) :=
  ⟨halfTurnX_rotation.1, halfTurnX_rotation.2.1, by simp, by simp, halfTurnX_rotation.2.2.1,
    C6_zero_error_only_if_equal_or_half_turn (halfTurnX ℝ) 1 halfTurnX_rotation.1
      halfTurnX_rotation.2.1 (by simp) (by simp) halfTurnX_rotation.2.2.1⟩

/-! ## C8: the range of the wrapped yaw -/

/-- C8. For every desired velocity, the yaw used by `ComputeDesiredAngularAcc` after the wrap
step, `atan2 (vy, vx)` plus the wrap constant 6.28 when negative, lies in `[0, 2π)`. -/
theorem C8_yaw_range (sqrt cos sin : ℝ → ℝ) (velocity_W : Vector3d ℝ) :
    0 ≤ yaw ⟨sqrt, fun y x => Complex.arg ⟨x, y⟩, cos, sin⟩ velocity_W
    ∧ yaw ⟨sqrt, fun y x => Complex.arg ⟨x, y⟩, cos, sin⟩ velocity_W < 2 * Real.pi := by
  have h1 := Complex.neg_pi_lt_arg ⟨velocity_W 0, velocity_W 1⟩
  have h2 := Complex.arg_le_pi ⟨velocity_W 0, velocity_W 1⟩
  have h3 := Real.pi_gt_d2
  have h4 := Real.pi_lt_d2
  simp only [yaw]
  split_ifs with h
  · constructor <;> norm_num at h3 h4 ⊢ <;> linarith
  · constructor <;> linarith [not_lt.mp h]

/-! ## C9: the wrap step and the heading -/

theorem neg_I_eq : (⟨0, -1⟩ : ℂ) = -Complex.I := by
  apply Complex.ext <;> simp

/-- Wherever the wrap step fires, the heading vector differs from `(cos θ, sin θ, 0)`: the
constant 6.28 is not a multiple of the full turn. -/
theorem wrap_rotates_heading (sqrt : ℝ → ℝ) (velocity_W : Vector3d ℝ)
    (h : Complex.arg ⟨velocity_W 0, velocity_W 1⟩ < 0) :
    b1_des ⟨sqrt, fun y x => Complex.arg ⟨x, y⟩, Real.cos, Real.sin⟩ velocity_W
      ≠ ![Real.cos (Complex.arg ⟨velocity_W 0, velocity_W 1⟩),
          Real.sin (Complex.arg ⟨velocity_W 0, velocity_W 1⟩), 0] := by
  intro he
  have h0 := congrFun he 0
  have h1 := congrFun he 1
  simp only [b1_des, yaw, h, if_true, Matrix.cons_val_zero, Matrix.cons_val_one,
    Matrix.head_cons] at h0 h1
  generalize Complex.arg ⟨velocity_W 0, velocity_W 1⟩ = θ at h0 h1
  have hc : Real.cos 6.28 = 1 := by
    have e : (6.28 : ℝ) = (θ + 6.28) - θ := by ring
    rw [e, Real.cos_sub, h0, h1]
    have := Real.sin_sq_add_cos_sq θ
    nlinarith
  have h3 := Real.pi_gt_d2
  have hz : (6.28 : ℝ) = 0 :=
    (Real.cos_eq_one_iff_of_lt_of_lt (by norm_num at h3 ⊢; linarith)
      (by norm_num at h3 ⊢; linarith)).mp hc
  norm_num at hz

/-- C9 fails on the code: for the desired velocity `(0, −1, 0)`, whose `atan2` is `−π/2 < 0`,
the wrap adds 6.28 and not a full turn, and the heading vector `b1_des` that the code builds
differs from `(cos θ, sin θ, 0)` with `θ = atan2 (vy, vx)`: its first component is negative
instead of `cos (−π/2) = 0`. -/
theorem C9_wrap_changes_heading :
    Complex.arg ⟨0, -1⟩ < 0
    ∧ yaw ⟨Real.sqrt, fun y x => Complex.arg ⟨x, y⟩, Real.cos, Real.sin⟩ ![0, -1, 0]
        = Complex.arg ⟨0, -1⟩ + 6.28
    ∧ b1_des ⟨Real.sqrt, fun y x => Complex.arg ⟨x, y⟩, Real.cos, Real.sin⟩ ![0, -1, 0] 0 < 0
    ∧ b1_des ⟨Real.sqrt, fun y x => Complex.arg ⟨x, y⟩, Real.cos, Real.sin⟩ ![0, -1, 0]
        ≠ ![Real.cos (Complex.arg ⟨0, -1⟩), Real.sin (Complex.arg ⟨0, -1⟩), 0] := by
  have h3 := Real.pi_gt_d2
  have h4 := Real.pi_lt_d2
  have harg : Complex.arg ⟨0, -1⟩ = -(Real.pi / 2) := by rw [neg_I_eq, Complex.arg_neg_I]
  have hneg : Complex.arg ⟨0, -1⟩ < 0 := by rw [harg]; linarith [Real.pi_pos]
  have hyaw : yaw ⟨Real.sqrt, fun y x => Complex.arg ⟨x, y⟩, Real.cos, Real.sin⟩ ![0, -1, 0]
      = Complex.arg ⟨0, -1⟩ + 6.28 := by
    simp only [yaw, Matrix.cons_val_zero, Matrix.cons_val_one, Matrix.head_cons, hneg, if_true]
  have hcos : Real.cos (-(Real.pi / 2) + 6.28) < 0 := by
    apply Real.cos_neg_of_pi_div_two_lt_of_lt <;> norm_num at h3 h4 ⊢ <;> linarith
  have hb : b1_des ⟨Real.sqrt, fun y x => Complex.arg ⟨x, y⟩, Real.cos, Real.sin⟩
      ![0, -1, 0] 0 < 0 := by
    simp only [b1_des, hyaw, Matrix.cons_val_zero, harg]
    exact hcos
  refine ⟨hneg, hyaw, hb, fun h => ?_⟩
  have h0 := congrFun h 0
  rw [h0] at hb
  simp only [Matrix.cons_val_zero, harg, Real.cos_neg, Real.cos_pi_div_two, lt_self_iff_false]
    at hb

/-! ## C11: the moment command -/

/-- C11. For every controller state and desired force, the moment output of
`ComputeDesiredAngularAcc` is `−e_R ⊙ k_R − e_ω ⊙ k_ω + ω × (Inertia_hat · ω)`, where `e_R`
and `e_ω` are the attitude and angular-rate errors it stores, `k_R`, `k_ω` the attitude and
angular-rate gains and `ω` the measured body angular velocity; the gyroscopic term is there on
every path.  (Where a stored error is NaN, the sum is NaN.)  `Inertia_hat` is left alone by the
function and by every call sequence, and is `diag (0.034, 0.045, 0.098)` from the constructor
on. -/
theorem C11_moment_control_input {K : Type} {N : Nat} [LinearOrderedField K] (L : Libm K) :
    (∀ (s : LeePositionController K N) (force : Vector3d K),
        (ComputeDesiredAngularAcc L s force).2
          = match (ComputeDesiredAngularAcc L s force).1.angle_error,
              (ComputeDesiredAngularAcc L s force).1.angular_rate_error with
            | some e, some w =>
                some fun i =>
                  - (e i * s.controller_parameters_.attitude_gain_ i)
                  - w i * s.controller_parameters_.angular_rate_gain_ i
                  + cross s.odometry_.angular_velocity
                      (fun a => ∑ b, s.Inertia_hat a b * s.odometry_.angular_velocity b) i
            | _, _ => none)
    ∧ (∀ (s : LeePositionController K N) (force : Vector3d K),
        (ComputeDesiredAngularAcc L s force).1.Inertia_hat = s.Inertia_hat)
    ∧ (∀ (A : Matrix (Fin 4) (Fin N) K) (raw : LeePositionController K N)
        (calls : List (Call K)),
        ∃ r, run L (newLeePositionController A raw) calls = some r
          ∧ r.1.Inertia_hat = !![0.034, 0, 0; 0, 0.045, 0; 0, 0, 0.098]) := by
  refine ⟨fun s force => ?_, fun s force => rfl, fun A raw calls => ?_⟩
  · cases hR : R_des L force s.command_trajectory_.velocity_W with
    | none => rw [ComputeDesiredAngularAcc_of_none L s force hR]
    | some Rd =>
      rw [ComputeDesiredAngularAcc_of_some L s force Rd hR]
      rfl
  · obtain ⟨r, hr, -, -, -, -, -, h5⟩ :=
      run_frame L calls _ (newLeePositionController_flags A raw).1
    exact ⟨r, hr, h5.trans (newLeePositionController_members A raw).2.2.2.2⟩
/-! ## C16: an inactive call changes nothing but the rotor velocities -/

/-- C16. While the controller is inactive, a `CalculateRotorVelocities` call returns, writes
the zero vector to `rotor_velocities`, leaves the controller as it was (every member, among
them `index`, `index_m`, `full`, `full_m`, `Last_R_des`, `angle_error`, `angular_rate_error`,
the odometry, the trajectory command and the activation flag) and leaves the outputs
`theta_esti`, `theta_m_esti` and `error` as the caller passed them. -/
theorem C16_inactive_call_frame {K : Type} {N : Nat} [LinearOrderedField K] (L : Libm K)
    (s : LeePositionController K N) (out : Outputs K)
    (hi : s.initialized_params_ = true) (ha : s.controller_active_ = false) :
    ∃ r, CalculateRotorVelocities L s out = some r
      ∧ r.2.rotor_velocities = List.replicate N (some 0)
      ∧ r.1 = s
      ∧ (r.1.index = s.index ∧ r.1.index_m = s.index_m ∧ r.1.full = s.full
          ∧ r.1.full_m = s.full_m ∧ r.1.Last_R_des = s.Last_R_des
          ∧ r.1.angle_error = s.angle_error ∧ r.1.angular_rate_error = s.angular_rate_error
          ∧ r.1.odometry_ = s.odometry_ ∧ r.1.command_trajectory_ = s.command_trajectory_
          ∧ r.1.controller_active_ = s.controller_active_)
      ∧ r.2.theta_esti = out.theta_esti
      ∧ r.2.theta_m_esti = out.theta_m_esti
      ∧ r.2.error = out.error :=
  ⟨_, CalculateRotorVelocities_inactive L s out hi ha, rfl, rfl,
    ⟨rfl, rfl, rfl, rfl, rfl, rfl, rfl, rfl, rfl, rfl⟩, rfl, rfl, rfl⟩

/-- C16 at the freshly constructed example vehicle. -/
theorem C16_inactive_call_frame_witness :
    (exampleController ℚ).initialized_params_ = true
    ∧ (exampleController ℚ).controller_active_ = false
    ∧ ∃ r, CalculateRotorVelocities ⟨id, fun _ _ => 0, id, id⟩ (exampleController ℚ)
          (exampleOutputs ℚ) = some r
        ∧ r.2.rotor_velocities = List.replicate 4 (some 0)
        ∧ r.1 = exampleController ℚ
        ∧ (r.1.index = (exampleController ℚ).index
            ∧ r.1.index_m = (exampleController ℚ).index_m
            ∧ r.1.full = (exampleController ℚ).full
            ∧ r.1.full_m = (exampleController ℚ).full_m
            ∧ r.1.Last_R_des = (exampleController ℚ).Last_R_des
            ∧ r.1.angle_error = (exampleController ℚ).angle_error
            ∧ r.1.angular_rate_error = (exampleController ℚ).angular_rate_error
            ∧ r.1.odometry_ = (exampleController ℚ).odometry_
            ∧ r.1.command_trajectory_ = (exampleController ℚ).command_trajectory_
            ∧ r.1.controller_active_ = (exampleController ℚ).controller_active_)
        ∧ r.2.theta_esti = (exampleOutputs ℚ).theta_esti
        ∧ r.2.theta_m_esti = (exampleOutputs ℚ).theta_m_esti
        ∧ r.2.error = (exampleOutputs ℚ).error :=
  ⟨rfl, rfl, C16_inactive_call_frame _ (exampleController ℚ) (exampleOutputs ℚ) rfl rfl⟩

/-! ## C17: the parameter estimates stay zero -/

/-- C17. Every sequence of `SetOdometry`, `SetTrajectoryPoint` and `CalculateRotorVelocities`
calls runs to completion from the constructed controller, and in the state it reaches
`theta_diag_hat` is the zero vector and `theta_m_hat_R` is zero; hence, if that state is
active, a `CalculateRotorVelocities` call made in it reports `theta_esti = (0, 0, 0)` and
`theta_m_esti = (0, 0, 0)`, whatever the odometry, the command and the output arguments. -/
theorem C17_estimates_stay_zero {K : Type} {N : Nat} [LinearOrderedField K] (L : Libm K)
    (A : Matrix (Fin 4) (Fin N) K) (raw : LeePositionController K N) (calls : List (Call K)) :
    ∃ r, run L (newLeePositionController A raw) calls = some r
      ∧ r.1.theta_diag_hat = ![0, 0, 0]
      ∧ r.1.theta_m_hat_R = 0
      ∧ (r.1.controller_active_ = true →
          ∀ out : Outputs K, ∃ q, CalculateRotorVelocities L r.1 out = some q
            ∧ q.2.theta_esti = ![0, 0, 0]
            ∧ q.2.theta_m_esti = ![0, 0, 0]
            ∧ q.1.theta_diag_hat = ![0, 0, 0]
            ∧ q.1.theta_m_hat_R = 0) := by
  obtain ⟨r, hr, hri, -, h2, h3, -, -⟩ :=
    run_frame L calls _ (newLeePositionController_flags A raw).1
  have e2 : r.1.theta_diag_hat = ![0, 0, 0] :=
    h2.trans (newLeePositionController_members A raw).2.1
  have e3 : r.1.theta_m_hat_R = 0 := h3.trans (newLeePositionController_members A raw).2.2.1
  refine ⟨r, hr, e2, e3, fun ha out => ?_⟩
  obtain ⟨q, hq, -, h5, h6, -⟩ := CalculateRotorVelocities_active L r.1 out hri ha
  obtain ⟨-, f2, f3, -⟩ := CalculateRotorVelocities_frame L r.1 out q hq
  refine ⟨q, hq, ?_, ?_, f2.trans e2, f3.trans e3⟩
  · rw [h5, e2]
    funext i
    fin_cases i <;> rfl
  · rw [h6, e3]

/-! ## C18: the desired angular rate is identically zero -/

theorem angular_rate_des_zero {K : Type} [Field K] (M : Matrix3d K)
    (hM : M.transpose * M = 1) (dt : K) : angular_rate_des M 0 dt = 0 := by
  have key : ∀ i j, (M.transpose * Matrix.of fun a b => M a b / dt) i j
      = (1 : Matrix3d K) i j / dt := by
    intro i j
    rw [← hM, Matrix.mul_apply, Matrix.mul_apply, Finset.sum_div]
    refine Finset.sum_congr rfl fun k _ => ?_
    simp [mul_div_assoc]
  funext i
  simp only [angular_rate_des, vectorFromSkewMatrix, sub_zero]
  fin_cases i <;> simp [key]

theorem toRotationMatrix_identity {K : Type} [Field K] :
    (Quaterniond.mk 1 0 0 0 : Quaterniond K).toRotationMatrix = 1 := by
  ext i j
  fin_cases i <;> fin_cases j <;>
    simp [Quaterniond.toRotationMatrix, Matrix.vecHead, Matrix.vecTail]

theorem ComputeDesiredForce_on_track {K : Type} {N : Nat} [Field K]
    (s : LeePositionController K N)
    (hp : s.command_trajectory_.position_W = s.odometry_.position)
    (hv : s.odometry_.orientation.toRotationMatrix.mulVec s.odometry_.velocity
        = s.command_trajectory_.velocity_W) :
    (ComputeDesiredForce s).force_control_input
      = ![- (s.vehicle_parameters_.mass_ * s.command_trajectory_.acceleration_W 0),
          - (s.vehicle_parameters_.mass_ * s.command_trajectory_.acceleration_W 1),
          - (s.vehicle_parameters_.mass_ * s.vehicle_parameters_.gravity_)
            - s.vehicle_parameters_.mass_ * s.command_trajectory_.acceleration_W 2] := by
  funext i
  simp only [ComputeDesiredForce, hp, hv, sub_self, cwiseProduct, Pi.sub_apply, Pi.add_apply,
    Pi.smul_apply, Pi.zero_apply, smul_eq_mul, zero_mul, add_zero]
  fin_cases i <;> simp

theorem ComputeDesiredForce_cruise :
    (ComputeDesiredForce (cruiseController ℝ)).force_control_input = ![0, 0, -10] := by
  rw [ComputeDesiredForce_on_track (cruiseController ℝ) rfl
    (by
      show (Quaterniond.mk 1 0 0 0 : Quaterniond ℝ).toRotationMatrix.mulVec ![1, 0, 0]
        = ![1, 0, 0]
      rw [toRotationMatrix_identity, Matrix.one_mulVec])]
  show ![-((1 : ℝ) * zero3 ℝ 0), -((1 : ℝ) * zero3 ℝ 1), -((1 : ℝ) * 10) - 1 * zero3 ℝ 2]
    = ![0, 0, -10]
  simp [zero3]

theorem ComputeDesiredAngularAcc_rate_error {N : Nat} (atan2 : ℝ → ℝ → ℝ) (cos sin : ℝ → ℝ)
    (s : LeePositionController ℝ N) (force : Vector3d ℝ) (hL : s.Last_R_des = 0)
    (hf : norm ⟨Real.sqrt, atan2, cos, sin⟩ force ≠ 0)
    (hp : ∀ b3, b3_des ⟨Real.sqrt, atan2, cos, sin⟩ force = some b3 →
      ¬ ∃ t : ℝ, b1_des ⟨Real.sqrt, atan2, cos, sin⟩ s.command_trajectory_.velocity_W
          = t • b3) :
    (∃ Rd, R_des ⟨Real.sqrt, atan2, cos, sin⟩ force s.command_trajectory_.velocity_W = some Rd
        ∧ angular_rate_des Rd s.Last_R_des s.dt = 0)
    ∧ (ComputeDesiredAngularAcc ⟨Real.sqrt, atan2, cos, sin⟩ s force).1.angular_rate_error
        = some s.odometry_.angular_velocity := by
  obtain ⟨b2, b3, Rd, -, -, hRd, -, -, -, ho, -⟩ :=
    R_des_is_rotation atan2 cos sin force s.command_trajectory_.velocity_W hf hp
  have h0 : angular_rate_des Rd s.Last_R_des s.dt = 0 := by
    rw [hL]
    exact angular_rate_des_zero _ ho _
  refine ⟨⟨Rd, hRd, h0⟩, ?_⟩
  rw [ComputeDesiredAngularAcc_of_some _ s force Rd hRd]
  simp only [h0, Matrix.mulVec_zero, sub_zero]

/-- C18. In every state reached from the constructed controller by a call sequence,
`Last_R_des` is the zero matrix; if the state is active, the desired force has non-zero norm
and `b1_des` is not parallel to `b3_des`, the desired angular rate
`vee (R_desᵀ·(R_des − Last_R_des)/dt)` is the zero vector, and the `CalculateRotorVelocities`
call made in that state stores and reports the measured body angular velocity `ω` as the
angular-rate error, and leaves `Last_R_des` zero. -/
theorem C18_desired_angular_rate_zero {N : Nat} (atan2 : ℝ → ℝ → ℝ) (cos sin : ℝ → ℝ)
    (A : Matrix (Fin 4) (Fin N) ℝ) (raw : LeePositionController ℝ N) (calls : List (Call ℝ))
    (r : LeePositionController ℝ N × List (Outputs ℝ))
    (hr : run ⟨Real.sqrt, atan2, cos, sin⟩ (newLeePositionController A raw) calls = some r)
    (ha : r.1.controller_active_ = true)
    (hf : norm ⟨Real.sqrt, atan2, cos, sin⟩ (ComputeDesiredForce r.1).force_control_input ≠ 0)
    (hp : ∀ b3,
      b3_des ⟨Real.sqrt, atan2, cos, sin⟩ (ComputeDesiredForce r.1).force_control_input
          = some b3 →
        ¬ ∃ t : ℝ,
          b1_des ⟨Real.sqrt, atan2, cos, sin⟩ r.1.command_trajectory_.velocity_W = t • b3) :
    r.1.Last_R_des = 0
    ∧ (∃ Rd,
        R_des ⟨Real.sqrt, atan2, cos, sin⟩ (ComputeDesiredForce r.1).force_control_input
            r.1.command_trajectory_.velocity_W = some Rd
        ∧ angular_rate_des Rd r.1.Last_R_des r.1.dt = 0)
    ∧ ∀ out : Outputs ℝ,
        ∃ q, CalculateRotorVelocities ⟨Real.sqrt, atan2, cos, sin⟩ r.1 out = some q
          ∧ q.1.angular_rate_error = some r.1.odometry_.angular_velocity
          ∧ q.2.error.angular
              = some ![r.1.odometry_.angular_velocity 0, r.1.odometry_.angular_velocity 1,
                  r.1.odometry_.angular_velocity 2]
          ∧ q.1.Last_R_des = 0 := by
  obtain ⟨r2, hr2, hri, h1, -⟩ :=
    run_frame ⟨Real.sqrt, atan2, cos, sin⟩ calls _ (newLeePositionController_flags A raw).1
  rw [hr] at hr2
  cases hr2
  have hL : r.1.Last_R_des = 0 := h1.trans (newLeePositionController_members A raw).1
  obtain ⟨h0, he⟩ := ComputeDesiredAngularAcc_rate_error atan2 cos sin r.1 _ hL hf hp
  refine ⟨hL, h0, fun out => ?_⟩
  obtain ⟨q, hq, -, -, -, -, h5, -, h7, -⟩ :=
    CalculateRotorVelocities_active ⟨Real.sqrt, atan2, cos, sin⟩ r.1 out hri ha
  obtain ⟨f1, -⟩ := CalculateRotorVelocities_frame _ r.1 out q hq
  refine ⟨q, hq, h5.trans he, ?_, f1.trans hL⟩
  rw [h7, h5, he]
  rfl

/-- C18 at the example vehicle cruising on its commanded trajectory. -/
theorem C18_desired_angular_rate_zero_witness :
    let L : Libm ℝ := ⟨Real.sqrt, fun y x => Complex.arg ⟨x, y⟩, Real.cos, Real.sin⟩
    run L (newLeePositionController (exampleAllocation ℝ) (exampleRaw ℝ))
        [Call.SetOdometry (cruiseOdometry ℝ), Call.SetTrajectoryPoint (exampleTrajectoryPoint ℝ)]
      = some (cruiseController ℝ, [])
    ∧ (cruiseController ℝ).controller_active_ = true
    ∧ norm L (ComputeDesiredForce (cruiseController ℝ)).force_control_input ≠ 0
    ∧ (∀ b3,
        b3_des L (ComputeDesiredForce (cruiseController ℝ)).force_control_input = some b3 →
          ¬ ∃ t : ℝ, b1_des L (cruiseController ℝ).command_trajectory_.velocity_W = t • b3)
    ∧ (cruiseController ℝ).Last_R_des = 0
    ∧ (∃ Rd,
        R_des L (ComputeDesiredForce (cruiseController ℝ)).force_control_input
            (cruiseController ℝ).command_trajectory_.velocity_W = some Rd
        ∧ angular_rate_des Rd (cruiseController ℝ).Last_R_des (cruiseController ℝ).dt = 0)
    ∧ ∀ out : Outputs ℝ,
        ∃ q, CalculateRotorVelocities L (cruiseController ℝ) out = some q
          ∧ q.1.angular_rate_error = some (cruiseController ℝ).odometry_.angular_velocity
          ∧ q.2.error.angular
              = some ![(cruiseController ℝ).odometry_.angular_velocity 0,
                  (cruiseController ℝ).odometry_.angular_velocity 1,
                  (cruiseController ℝ).odometry_.angular_velocity 2]
          ∧ q.1.Last_R_des = 0 :=
  have h1 : norm ⟨Real.sqrt, fun y x => Complex.arg ⟨x, y⟩, Real.cos, Real.sin⟩
      (ComputeDesiredForce (cruiseController ℝ)).force_control_input ≠ 0 := by
    rw [ComputeDesiredForce_cruise]
    exact norm_level_force_ne_zero _ _ _
  have h2 : ∀ b3,
      b3_des ⟨Real.sqrt, fun y x => Complex.arg ⟨x, y⟩, Real.cos, Real.sin⟩
          (ComputeDesiredForce (cruiseController ℝ)).force_control_input = some b3 →
        ¬ ∃ t : ℝ,
          b1_des ⟨Real.sqrt, fun y x => Complex.arg ⟨x, y⟩, Real.cos, Real.sin⟩
              (cruiseController ℝ).command_trajectory_.velocity_W = t • b3 := by
    rw [ComputeDesiredForce_cruise]
    exact level_not_parallel
  ⟨rfl, rfl, h1, h2,
    C18_desired_angular_rate_zero (fun y x => Complex.arg ⟨x, y⟩) Real.cos Real.sin
      (exampleAllocation ℝ) (exampleRaw ℝ)
      [Call.SetOdometry (cruiseOdometry ℝ), Call.SetTrajectoryPoint (exampleTrajectoryPoint ℝ)]
      (cruiseController ℝ, []) rfl rfl h1 h2⟩

/-! ## C12: the stored previous desired rotation -/

/-- C12 fails on the code: `Last_R_des` is never assigned after `InitializeParameters`.  For
the example vehicle cruising on its commanded trajectory, the active call computes
`R_des = 1`, and after the call `Last_R_des` is still the zero matrix. -/
theorem C12_Last_R_des_not_updated :
    (cruiseController ℝ).initialized_params_ = true
    ∧ (cruiseController ℝ).controller_active_ = true
    ∧ R_des ⟨Real.sqrt, fun y x => Complex.arg ⟨x, y⟩, Real.cos, Real.sin⟩
        (ComputeDesiredForce (cruiseController ℝ)).force_control_input
        (cruiseController ℝ).command_trajectory_.velocity_W = some 1
    ∧ ∃ r, CalculateRotorVelocities
          ⟨Real.sqrt, fun y x => Complex.arg ⟨x, y⟩, Real.cos, Real.sin⟩
          (cruiseController ℝ) (exampleOutputs ℝ) = some r
        ∧ r.1.Last_R_des = 0
        ∧ some r.1.Last_R_des
            ≠ R_des ⟨Real.sqrt, fun y x => Complex.arg ⟨x, y⟩, Real.cos, Real.sin⟩
                (ComputeDesiredForce (cruiseController ℝ)).force_control_input
                (cruiseController ℝ).command_trajectory_.velocity_W := by
  have hR : R_des ⟨Real.sqrt, fun y x => Complex.arg ⟨x, y⟩, Real.cos, Real.sin⟩
      (ComputeDesiredForce (cruiseController ℝ)).force_control_input
      (cruiseController ℝ).command_trajectory_.velocity_W = some 1 := by
    rw [ComputeDesiredForce_cruise]
    exact R_des_level
  refine ⟨rfl, rfl, hR, ?_⟩
  obtain ⟨r, hr, -⟩ := CalculateRotorVelocities_active
    ⟨Real.sqrt, fun y x => Complex.arg ⟨x, y⟩, Real.cos, Real.sin⟩
    (cruiseController ℝ) (exampleOutputs ℝ) rfl rfl
  obtain ⟨f1, -⟩ := CalculateRotorVelocities_frame _ _ _ r hr
  have h0 : r.1.Last_R_des = 0 := f1
  refine ⟨r, hr, h0, ?_⟩
  rw [h0, hR]
  exact fun h => zero_ne_one (Option.some.inj h)

/-! ## C14: the hover scenario -/

theorem zero3_eq_zero (K : Type) [Zero K] : zero3 K = 0 := by
  funext i
  fin_cases i <;> rfl

theorem arg_zero_zero : Complex.arg ⟨0, 0⟩ = 0 := by
  have : (⟨0, 0⟩ : ℂ) = 0 := by apply Complex.ext <;> simp
  rw [this, Complex.arg_zero]

theorem b1_des_at_rest (sqrt : ℝ → ℝ) :
    b1_des ⟨sqrt, fun y x => Complex.arg ⟨x, y⟩, Real.cos, Real.sin⟩ 0 = ![1, 0, 0] := by
  simp [b1_des, yaw, arg_zero_zero]

/-- C14. Hover: for an active controller with mass 1, gravity 9.81, rotation matrix of the
odometry the identity, body velocity 0, angular velocity 0, desired position equal to the
current one, desired velocity 0 and desired acceleration 0, whatever the gains, on the first
call (`Last_R_des` still zero), `CalculateRotorVelocities` returns and computes the desired
force `(0, 0, −9.81)`, the thrust `9.81`, the attitude error 0, the angular-rate error 0 and
the moment `(0, 0, 0)`; the rotor velocities are the allocation of the command
`(0, 0, 0, 9.81)`. -/
theorem C14_hover {N : Nat} (s : LeePositionController ℝ N) (out : Outputs ℝ)
    (hi : s.initialized_params_ = true) (ha : s.controller_active_ = true)
    (hm : s.vehicle_parameters_.mass_ = 1) (hg : s.vehicle_parameters_.gravity_ = 9.81)
    (hR : s.odometry_.orientation.toRotationMatrix = 1)
    (hv : s.odometry_.velocity = 0) (hw : s.odometry_.angular_velocity = 0)
    (hp : s.command_trajectory_.position_W = s.odometry_.position)
    (hvd : s.command_trajectory_.velocity_W = 0)
    (had : s.command_trajectory_.acceleration_W = 0)
    (hL : s.Last_R_des = 0) :
    (ComputeDesiredForce s).force_control_input = ![0, 0, -9.81]
    ∧ - dot (ComputeDesiredForce s).force_control_input
          (col s.odometry_.orientation.toRotationMatrix 2) = 9.81
    ∧ (ComputeDesiredAngularAcc
          ⟨Real.sqrt, fun y x => Complex.arg ⟨x, y⟩, Real.cos, Real.sin⟩ s
          (ComputeDesiredForce s).force_control_input).2 = some 0
    ∧ ∃ r, CalculateRotorVelocities
          ⟨Real.sqrt, fun y x => Complex.arg ⟨x, y⟩, Real.cos, Real.sin⟩ s out = some r
        ∧ r.1.angle_error = some 0
        ∧ r.1.angular_rate_error = some 0
        ∧ r.2.error.orientation = some ![0, 0, 0]
        ∧ r.2.error.angular = some ![0, 0, 0]
        ∧ r.2.rotor_velocities
            = (allocateRotorVelocities
                ⟨Real.sqrt, fun y x => Complex.arg ⟨x, y⟩, Real.cos, Real.sin⟩
                (moment_thrust_to_rotor_velocities s.controller_parameters_.allocation_matrix_)
                ![0, 0, 0, 9.81]).map some := by
  have hforce : (ComputeDesiredForce s).force_control_input = ![0, 0, -9.81] := by
    rw [ComputeDesiredForce_on_track s hp (by rw [hR, hv, hvd, Matrix.mulVec_zero]), hm, hg, had]
    simp
  have hRd : R_des ⟨Real.sqrt, fun y x => Complex.arg ⟨x, y⟩, Real.cos, Real.sin⟩
      (ComputeDesiredForce s).force_control_input s.command_trajectory_.velocity_W
        = some 1 := by
    rw [hforce, hvd]
    exact R_des_down _ _ _ 9.81 (by norm_num) 0 (b1_des_at_rest _)
  have hrate : angular_rate_des (1 : Matrix3d ℝ) s.Last_R_des s.dt = 0 := by
    rw [hL]
    exact angular_rate_des_zero 1 (by simp) s.dt
  have hC := ComputeDesiredAngularAcc_of_some
    ⟨Real.sqrt, fun y x => Complex.arg ⟨x, y⟩, Real.cos, Real.sin⟩ s _ 1 hRd
  rw [hR, hrate, hw, angle_error_self] at hC
  have hae : (ComputeDesiredAngularAcc
      ⟨Real.sqrt, fun y x => Complex.arg ⟨x, y⟩, Real.cos, Real.sin⟩ s
      (ComputeDesiredForce s).force_control_input).1.angle_error = some 0 := by
    rw [hC]
  have hare : (ComputeDesiredAngularAcc
      ⟨Real.sqrt, fun y x => Complex.arg ⟨x, y⟩, Real.cos, Real.sin⟩ s
      (ComputeDesiredForce s).force_control_input).1.angular_rate_error = some 0 := by
    rw [hC]
    simp
  have hmom : (ComputeDesiredAngularAcc
      ⟨Real.sqrt, fun y x => Complex.arg ⟨x, y⟩, Real.cos, Real.sin⟩ s
      (ComputeDesiredForce s).force_control_input).2 = some 0 := by
    rw [hC]
    simp only [Option.some.injEq]
    funext i
    fin_cases i <;> simp [cwiseProduct, cross]
  have hthrust : - dot (ComputeDesiredForce s).force_control_input
      (col s.odometry_.orientation.toRotationMatrix 2) = 9.81 := by
    rw [hforce, hR]
    simp [dot, col]
  refine ⟨hforce, hthrust, hmom, ?_⟩
  obtain ⟨r, hr, h1, -, -, h4, h5, h6, h7, -⟩ := CalculateRotorVelocities_active
    ⟨Real.sqrt, fun y x => Complex.arg ⟨x, y⟩, Real.cos, Real.sin⟩ s out hi ha
  refine ⟨r, hr, h4.trans hae, h5.trans hare, ?_, ?_, ?_⟩
  · rw [h6, h4, hae]; rfl
  · rw [h7, h5, hare]; rfl
  · rw [h1, hmom, hthrust]
    rfl

/-- C14 at the example vehicle of mass 1 under gravity 9.81, constructed, given the odometry
at rest at the origin and the command to hold the origin. -/
theorem C14_hover_witness :
    let L : Libm ℝ := ⟨Real.sqrt, fun y x => Complex.arg ⟨x, y⟩, Real.cos, Real.sin⟩
    (hoverController ℝ).initialized_params_ = true
    ∧ (hoverController ℝ).controller_active_ = true
    ∧ (hoverController ℝ).vehicle_parameters_.mass_ = 1
    ∧ (hoverController ℝ).vehicle_parameters_.gravity_ = 9.81
    ∧ (hoverController ℝ).odometry_.orientation.toRotationMatrix = 1
    ∧ (hoverController ℝ).odometry_.velocity = 0
    ∧ (hoverController ℝ).odometry_.angular_velocity = 0
    ∧ (hoverController ℝ).command_trajectory_.position_W
        = (hoverController ℝ).odometry_.position
    ∧ (hoverController ℝ).command_trajectory_.velocity_W = 0
    ∧ (hoverController ℝ).command_trajectory_.acceleration_W = 0
    ∧ (hoverController ℝ).Last_R_des = 0
    ∧ (ComputeDesiredForce (hoverController ℝ)).force_control_input = ![0, 0, -9.81]
    ∧ - dot (ComputeDesiredForce (hoverController ℝ)).force_control_input
          (col (hoverController ℝ).odometry_.orientation.toRotationMatrix 2) = 9.81
    ∧ (ComputeDesiredAngularAcc L (hoverController ℝ)
          (ComputeDesiredForce (hoverController ℝ)).force_control_input).2 = some 0
    ∧ ∃ r, CalculateRotorVelocities L (hoverController ℝ) (exampleOutputs ℝ) = some r
        ∧ r.1.angle_error = some 0
        ∧ r.1.angular_rate_error = some 0
        ∧ r.2.error.orientation = some ![0, 0, 0]
        ∧ r.2.error.angular = some ![0, 0, 0]
        ∧ r.2.rotor_velocities
            = (allocateRotorVelocities L
                (moment_thrust_to_rotor_velocities
                  (hoverController ℝ).controller_parameters_.allocation_matrix_)
                ![0, 0, 0, 9.81]).map some :=
  have hR : (hoverController ℝ).odometry_.orientation.toRotationMatrix = 1 :=
    toRotationMatrix_identity
  have hz : (hoverController ℝ).odometry_.velocity = 0 := zero3_eq_zero ℝ
  have hw : (hoverController ℝ).odometry_.angular_velocity = 0 := zero3_eq_zero ℝ
  have hvd : (hoverController ℝ).command_trajectory_.velocity_W = 0 := zero3_eq_zero ℝ
  have had : (hoverController ℝ).command_trajectory_.acceleration_W = 0 := zero3_eq_zero ℝ
  ⟨rfl, rfl, rfl, rfl, hR, hz, hw, rfl, hvd, had, rfl,
    C14_hover (hoverController ℝ) (exampleOutputs ℝ) rfl rfl rfl rfl hR hz hw rfl hvd had rfl⟩

/-! ## C13: a desired force of zero norm -/

theorem mul_moment_thrust_to_rotor_velocities {K : Type} {N : Nat} [Field K]
    (A : Matrix (Fin 4) (Fin N) K) (h : IsUnit (A * A.transpose)) :
    A * moment_thrust_to_rotor_velocities A = 1 := by
  rw [moment_thrust_to_rotor_velocities, ← Matrix.mul_assoc]
  exact mul_inverse_cancel _ ((Matrix.isUnit_iff_isUnit_det _).mp h).ne_zero

theorem exampleAllocation_isUnit (K : Type) [Field K] [CharZero K] :
    IsUnit (exampleAllocation K * (exampleAllocation K).transpose) := by
  have e : exampleAllocation K * (exampleAllocation K).transpose
      = Matrix.diagonal ![2, 2, 4, 4] := by
    ext i j
    rw [Matrix.mul_apply]
    simp only [Matrix.transpose_apply, Fin.sum_univ_four]
    fin_cases i <;> fin_cases j <;>
      simp [exampleAllocation, Matrix.vecHead, Matrix.vecTail] <;> norm_num
  rw [e, Matrix.isUnit_iff_isUnit_det, Matrix.det_diagonal]
  simp [Fin.prod_univ_four]

theorem norm_eq_zero_iff (atan2 : ℝ → ℝ → ℝ) (cos sin : ℝ → ℝ) (v : Vector3d ℝ) :
    norm ⟨Real.sqrt, atan2, cos, sin⟩ v = 0 ↔ v = 0 := by
  constructor
  · intro h
    by_contra hv
    exact (Real.sqrt_ne_zero'.mpr (squaredNorm_pos v hv)) h
  · rintro rfl
    simp [norm, squaredNorm, dot]

theorem ComputeDesiredForce_freeFall :
    (ComputeDesiredForce (freeFallController ℝ)).force_control_input = 0 := by
  rw [ComputeDesiredForce_on_track (freeFallController ℝ) rfl
    (by
      show (Quaterniond.mk 1 0 0 0 : Quaterniond ℝ).toRotationMatrix.mulVec (zero3 ℝ) = zero3 ℝ
      rw [toRotationMatrix_identity, Matrix.one_mulVec])]
  show ![-((1 : ℝ) * (![0, 0, -10] : Vector3d ℝ) 0), -((1 : ℝ) * (![0, 0, -10] : Vector3d ℝ) 1),
      -((1 : ℝ) * 10) - 1 * (![0, 0, -10] : Vector3d ℝ) 2] = 0
  funext i
  fin_cases i <;> simp

theorem CalculateRotorVelocities_zero_force {K : Type} {N : Nat} [LinearOrderedField K]
    (L : Libm K) (s : LeePositionController K N) (out : Outputs K)
    (hi : s.initialized_params_ = true) (ha : s.controller_active_ = true)
    (hz : norm L (ComputeDesiredForce s).force_control_input = 0) :
    ∃ r, CalculateRotorVelocities L s out = some r
      ∧ r.1.index = (if s.index ≥ s.ICL_N then 0 else s.index) + 1
      ∧ r.1.angle_error = none
      ∧ r.1.angular_rate_error = none
      ∧ r.2.error.orientation = none
      ∧ r.2.error.angular = none
      ∧ r.2.rotor_velocities = List.replicate N none := by
  have hC := ComputeDesiredAngularAcc_of_none L s _
    (R_des_of_norm_eq_zero L _ s.command_trajectory_.velocity_W hz).2
  obtain ⟨r, hr, h1, -, -, h4, h5, h6, h7, h8, -⟩ :=
    CalculateRotorVelocities_active L s out hi ha
  rw [hC] at h1 h4 h5
  have e4 : r.1.angle_error = none := h4
  have e5 : r.1.angular_rate_error = none := h5
  refine ⟨r, hr, h8, e4, e5, ?_, ?_, h1⟩
  · rw [h6, e4]
    rfl
  · rw [h7, e5]
    rfl

/-- C13 as stated fails: the example vehicle, rolling at unit rate and commanded to fall
freely, has the desired force zero; the active call raises no fault and does not return the
zero command: all four rotor velocities it returns are NaN. -/
theorem C13_counterexample :
    (freeFallController ℝ).initialized_params_ = true
    ∧ (freeFallController ℝ).controller_active_ = true
    ∧ norm ⟨Real.sqrt, fun y x => Complex.arg ⟨x, y⟩, Real.cos, Real.sin⟩
        (ComputeDesiredForce (freeFallController ℝ)).force_control_input = 0
    ∧ ¬ (CalculateRotorVelocities
            ⟨Real.sqrt, fun y x => Complex.arg ⟨x, y⟩, Real.cos, Real.sin⟩
            (freeFallController ℝ) (exampleOutputs ℝ) = none
          ∨ ∃ r, CalculateRotorVelocities
              ⟨Real.sqrt, fun y x => Complex.arg ⟨x, y⟩, Real.cos, Real.sin⟩
              (freeFallController ℝ) (exampleOutputs ℝ) = some r
            ∧ r.2.rotor_velocities = List.replicate 4 (some 0))
    ∧ ∃ r, CalculateRotorVelocities
          ⟨Real.sqrt, fun y x => Complex.arg ⟨x, y⟩, Real.cos, Real.sin⟩
          (freeFallController ℝ) (exampleOutputs ℝ) = some r
        ∧ r.2.rotor_velocities = [none, none, none, none] := by
  have hz : norm ⟨Real.sqrt, fun y x => Complex.arg ⟨x, y⟩, Real.cos, Real.sin⟩
      (ComputeDesiredForce (freeFallController ℝ)).force_control_input = 0 := by
    rw [ComputeDesiredForce_freeFall]
    exact (norm_eq_zero_iff _ _ _ _).mpr rfl
  obtain ⟨r, hr, -, -, -, -, -, h1⟩ := CalculateRotorVelocities_zero_force
    ⟨Real.sqrt, fun y x => Complex.arg ⟨x, y⟩, Real.cos, Real.sin⟩
    (freeFallController ℝ) (exampleOutputs ℝ) rfl rfl hz
  refine ⟨rfl, rfl, hz, ?_, r, hr, h1⟩
  rintro (hn | ⟨r2, hr2, h0⟩)
  · rw [hr] at hn
    cases hn
  · rw [hr] at hr2
    cases hr2
    rw [h1] at h0
    cases h0

/-- C13, amended. For an active controller whose desired force has zero norm,
`CalculateRotorVelocities` raises no fault and substitutes no fallback: it returns after the
same steps as for any other force.  The desired force is the zero vector, the ring counter is
advanced, `b3_des`, `b2_des` and `R_des` are NaN (the quotient of line 246 is `0 / 0` in every
component), the attitude error and the angular-rate error stored in the controller and
reported in `error` are NaN, the thrust command is 0, and every one of the `N` rotor
velocities returned is NaN. -/
theorem C13_zero_force_not_guarded {N : Nat} (atan2 : ℝ → ℝ → ℝ) (cos sin : ℝ → ℝ)
    (s : LeePositionController ℝ N) (out : Outputs ℝ)
    (hi : s.initialized_params_ = true) (ha : s.controller_active_ = true)
    (hz : norm ⟨Real.sqrt, atan2, cos, sin⟩ (ComputeDesiredForce s).force_control_input = 0) :
    (ComputeDesiredForce s).force_control_input = 0
    ∧ b3_des ⟨Real.sqrt, atan2, cos, sin⟩ (ComputeDesiredForce s).force_control_input = none
    ∧ b2_des ⟨Real.sqrt, atan2, cos, sin⟩ (ComputeDesiredForce s).force_control_input
        s.command_trajectory_.velocity_W = none
    ∧ R_des ⟨Real.sqrt, atan2, cos, sin⟩ (ComputeDesiredForce s).force_control_input
        s.command_trajectory_.velocity_W = none
    ∧ - dot (ComputeDesiredForce s).force_control_input
          (col s.odometry_.orientation.toRotationMatrix 2) = 0
    ∧ ∃ r, CalculateRotorVelocities ⟨Real.sqrt, atan2, cos, sin⟩ s out = some r
        ∧ r.1.index = (if s.index ≥ s.ICL_N then 0 else s.index) + 1
        ∧ r.1.angle_error = none
        ∧ r.1.angular_rate_error = none
        ∧ r.2.error.orientation = none
        ∧ r.2.error.angular = none
        ∧ r.2.rotor_velocities = List.replicate N none
        ∧ r.2.rotor_velocities.length = N
        ∧ ∀ v ∈ r.2.rotor_velocities, v ≠ some 0 := by
  have hf : (ComputeDesiredForce s).force_control_input = 0 :=
    (norm_eq_zero_iff atan2 cos sin _).mp hz
  have ht : - dot (ComputeDesiredForce s).force_control_input
      (col s.odometry_.orientation.toRotationMatrix 2) = 0 := by
    rw [hf]
    simp [dot]
  obtain ⟨hb2, hRd⟩ := R_des_of_norm_eq_zero ⟨Real.sqrt, atan2, cos, sin⟩
    (ComputeDesiredForce s).force_control_input s.command_trajectory_.velocity_W hz
  obtain ⟨r, hr, h1, h2, h3, h4, h5, h6⟩ :=
    CalculateRotorVelocities_zero_force ⟨Real.sqrt, atan2, cos, sin⟩ s out hi ha hz
  refine ⟨hf, b3_des_of_norm_eq_zero _ _ hz, hb2, hRd, ht, r, hr, h1, h2, h3, h4, h5, h6, ?_,
    fun v hv => ?_⟩
  · rw [h6, List.length_replicate]
  · rw [h6] at hv
    rw [List.eq_of_mem_replicate hv]
    exact fun h => by cases h

/-- C13, amended, at the example vehicle commanded to fall freely. -/
theorem C13_zero_force_not_guarded_witness :
    let L : Libm ℝ := ⟨Real.sqrt, fun y x => Complex.arg ⟨x, y⟩, Real.cos, Real.sin⟩
    (freeFallController ℝ).initialized_params_ = true
    ∧ (freeFallController ℝ).controller_active_ = true
    ∧ norm L (ComputeDesiredForce (freeFallController ℝ)).force_control_input = 0
    ∧ (ComputeDesiredForce (freeFallController ℝ)).force_control_input = 0
    ∧ b3_des L (ComputeDesiredForce (freeFallController ℝ)).force_control_input = none
    ∧ b2_des L (ComputeDesiredForce (freeFallController ℝ)).force_control_input
        (freeFallController ℝ).command_trajectory_.velocity_W = none
    ∧ R_des L (ComputeDesiredForce (freeFallController ℝ)).force_control_input
        (freeFallController ℝ).command_trajectory_.velocity_W = none
    ∧ - dot (ComputeDesiredForce (freeFallController ℝ)).force_control_input
          (col (freeFallController ℝ).odometry_.orientation.toRotationMatrix 2) = 0
    ∧ ∃ r, CalculateRotorVelocities L (freeFallController ℝ) (exampleOutputs ℝ) = some r
        ∧ r.1.index
            = (if (freeFallController ℝ).index ≥ (freeFallController ℝ).ICL_N then 0
                else (freeFallController ℝ).index) + 1
        ∧ r.1.angle_error = none
        ∧ r.1.angular_rate_error = none
        ∧ r.2.error.orientation = none
        ∧ r.2.error.angular = none
        ∧ r.2.rotor_velocities = List.replicate 4 none
        ∧ r.2.rotor_velocities.length = 4
        ∧ ∀ v ∈ r.2.rotor_velocities, v ≠ some 0 :=
  have hz : norm ⟨Real.sqrt, fun y x => Complex.arg ⟨x, y⟩, Real.cos, Real.sin⟩
      (ComputeDesiredForce (freeFallController ℝ)).force_control_input = 0 := by
    rw [ComputeDesiredForce_freeFall]
    exact (norm_eq_zero_iff _ _ _ _).mpr rfl
  ⟨rfl, rfl, hz,
    C13_zero_force_not_guarded (fun y x => Complex.arg ⟨x, y⟩) Real.cos Real.sin
      (freeFallController ℝ) (exampleOutputs ℝ) rfl rfl hz⟩

/-! ## C2: the rotor velocities are a non-negative vector of length N -/

theorem ComputeDesiredForce_restingFreeFall :
    (ComputeDesiredForce (restingFreeFallController ℝ)).force_control_input = 0 := by
  rw [ComputeDesiredForce_on_track (restingFreeFallController ℝ) rfl
    (by
      show (Quaterniond.mk 1 0 0 0 : Quaterniond ℝ).toRotationMatrix.mulVec (zero3 ℝ) = zero3 ℝ
      rw [toRotationMatrix_identity, Matrix.one_mulVec])]
  show ![-((1 : ℝ) * (![0, 0, -10] : Vector3d ℝ) 0), -((1 : ℝ) * (![0, 0, -10] : Vector3d ℝ) 1),
      -((1 : ℝ) * 10) - 1 * (![0, 0, -10] : Vector3d ℝ) 2] = 0
  funext i
  fin_cases i <;> simp

theorem CalculateRotorVelocities_finite_force {K : Type} {N : Nat} [LinearOrderedField K]
    (L : Libm K) (s : LeePositionController K N) (out : Outputs K)
    (hi : s.initialized_params_ = true) (ha : s.controller_active_ = true)
    (hf : norm L (ComputeDesiredForce s).force_control_input ≠ 0) :
    ∃ r m, CalculateRotorVelocities L s out = some r
      ∧ (ComputeDesiredAngularAcc L s (ComputeDesiredForce s).force_control_input).2 = some m
      ∧ r.2.rotor_velocities
          = (allocateRotorVelocities L
              (moment_thrust_to_rotor_velocities s.controller_parameters_.allocation_matrix_)
              ![m 0, m 1, m 2,
                - dot (ComputeDesiredForce s).force_control_input
                    (col s.odometry_.orientation.toRotationMatrix 2)]).map some := by
  have hC := ComputeDesiredAngularAcc_of_some L s _ _
    (R_des_of_b3_des L _ s.command_trajectory_.velocity_W _
      (b3_des_of_norm_ne_zero L _ hf)).2
  obtain ⟨r, hr, h1, -⟩ := CalculateRotorVelocities_active L s out hi ha
  rw [hC] at h1
  exact ⟨r, _, hr, by rw [hC], h1⟩

/-- C2 as stated fails: the example vehicle at rest, commanded to fall freely, is an
initialized, active controller state with `dt = 0.02` and an invertible `A·Aᵀ`; its desired
force is zero, the call returns, and the four rotor velocities it returns are NaN, so it is
not true that every entry is a real number `≥ 0`. -/
theorem C2_counterexample :
    (restingFreeFallController ℝ).initialized_params_ = true
    ∧ (restingFreeFallController ℝ).controller_active_ = true
    ∧ (ComputeDesiredForce (restingFreeFallController ℝ)).force_control_input = 0
    ∧ ¬ (∃ r, CalculateRotorVelocities
            ⟨Real.sqrt, fun y x => Complex.arg ⟨x, y⟩, Real.cos, Real.sin⟩
            (restingFreeFallController ℝ) (exampleOutputs ℝ) = some r
          ∧ r.2.rotor_velocities.length = 4
          ∧ ∀ v ∈ r.2.rotor_velocities, ∃ y : ℝ, v = some y ∧ 0 ≤ y)
    ∧ ∃ r, CalculateRotorVelocities
          ⟨Real.sqrt, fun y x => Complex.arg ⟨x, y⟩, Real.cos, Real.sin⟩
          (restingFreeFallController ℝ) (exampleOutputs ℝ) = some r
        ∧ r.2.rotor_velocities = [none, none, none, none] := by
  have hz : norm ⟨Real.sqrt, fun y x => Complex.arg ⟨x, y⟩, Real.cos, Real.sin⟩
      (ComputeDesiredForce (restingFreeFallController ℝ)).force_control_input = 0 := by
    rw [ComputeDesiredForce_restingFreeFall]
    exact (norm_eq_zero_iff _ _ _ _).mpr rfl
  obtain ⟨r, hr, -, -, -, -, -, h1⟩ := CalculateRotorVelocities_zero_force
    ⟨Real.sqrt, fun y x => Complex.arg ⟨x, y⟩, Real.cos, Real.sin⟩
    (restingFreeFallController ℝ) (exampleOutputs ℝ) rfl rfl hz
  refine ⟨rfl, rfl, ComputeDesiredForce_restingFreeFall, ?_, r, hr, h1⟩
  rintro ⟨r2, hr2, -, h0⟩
  rw [hr] at hr2
  cases hr2
  rw [h1] at h0
  obtain ⟨y, hy, -⟩ := h0 none (by simp)
  cases hy

/-- C2, amended. For every controller state that passes `assert(initialized_params_)` and
every content of the output arguments, `CalculateRotorVelocities` returns a vector of length
`N`.  If the controller is inactive, or if it is active and none of the three divisions of the
call has a zero divisor (the desired force has non-zero norm, `dt ≠ 0` and `A·Aᵀ` is
invertible for the allocation matrix `A`), each entry is the real number `sqrt (max 0 x_i)`
for the allocated squared velocity `x_i`, and each entry is `≥ 0`. -/
theorem C2_rotor_velocities_nonneg {N : Nat} (atan2 : ℝ → ℝ → ℝ) (cos sin : ℝ → ℝ)
    (s : LeePositionController ℝ N) (out : Outputs ℝ) (hi : s.initialized_params_ = true) :
    (∃ r, CalculateRotorVelocities ⟨Real.sqrt, atan2, cos, sin⟩ s out = some r
      ∧ r.2.rotor_velocities.length = N)
    ∧ ((s.controller_active_ = true →
          norm ⟨Real.sqrt, atan2, cos, sin⟩ (ComputeDesiredForce s).force_control_input ≠ 0
          ∧ s.dt ≠ 0
          ∧ IsUnit (s.controller_parameters_.allocation_matrix_
              * s.controller_parameters_.allocation_matrix_.transpose)) →
        ∃ r, CalculateRotorVelocities ⟨Real.sqrt, atan2, cos, sin⟩ s out = some r
          ∧ r.2.rotor_velocities.length = N
          ∧ (∃ x : Fin N → ℝ,
              r.2.rotor_velocities = List.ofFn fun i => some (Real.sqrt (max 0 (x i))))
          ∧ ∀ v ∈ r.2.rotor_velocities, ∃ y : ℝ, v = some y ∧ 0 ≤ y) := by
  have key : ∀ (r : LeePositionController ℝ N × Outputs ℝ) (x : Fin N → ℝ),
      r.2.rotor_velocities = List.ofFn (fun i => some (Real.sqrt (max 0 (x i)))) →
      r.2.rotor_velocities.length = N
      ∧ (∃ x : Fin N → ℝ,
          r.2.rotor_velocities = List.ofFn fun i => some (Real.sqrt (max 0 (x i))))
      ∧ ∀ v ∈ r.2.rotor_velocities, ∃ y : ℝ, v = some y ∧ 0 ≤ y := by
    intro r x hx
    refine ⟨by rw [hx, List.length_ofFn], ⟨x, hx⟩, fun v hv => ?_⟩
    rw [hx, List.mem_ofFn] at hv
    obtain ⟨i, rfl⟩ := hv
    exact ⟨_, rfl, Real.sqrt_nonneg _⟩
  cases ha : s.controller_active_
  · have hr := CalculateRotorVelocities_inactive ⟨Real.sqrt, atan2, cos, sin⟩ s out hi ha
    refine ⟨⟨_, hr, by simp⟩, fun _ => ⟨_, hr, key _ (fun _ => 0) ?_⟩⟩
    simp [List.ofFn_const]
  · refine ⟨?_, fun hd => ?_⟩
    · obtain ⟨r, hr, h1, -⟩ :=
        CalculateRotorVelocities_active ⟨Real.sqrt, atan2, cos, sin⟩ s out hi ha
      refine ⟨r, hr, ?_⟩
      rw [h1]
      split
      · rw [List.length_map, allocateRotorVelocities_eq, List.length_ofFn]
      · rw [List.length_replicate]
    · obtain ⟨r, m, hr, -, h1⟩ := CalculateRotorVelocities_finite_force
        ⟨Real.sqrt, atan2, cos, sin⟩ s out hi ha (hd rfl).1
      refine ⟨r, hr, key r
        ((moment_thrust_to_rotor_velocities s.controller_parameters_.allocation_matrix_).mulVec
          ![m 0, m 1, m 2,
            - dot (ComputeDesiredForce s).force_control_input
                (col s.odometry_.orientation.toRotationMatrix 2)]) ?_⟩
      rw [h1, allocateRotorVelocities_eq, List.map_ofFn]
      rfl

/-- C2, amended, at the example vehicle cruising on its commanded trajectory. -/
theorem C2_rotor_velocities_nonneg_witness :
    let L : Libm ℝ := ⟨Real.sqrt, fun y x => Complex.arg ⟨x, y⟩, Real.cos, Real.sin⟩
    (cruiseController ℝ).initialized_params_ = true
    ∧ (cruiseController ℝ).controller_active_ = true
    ∧ norm L (ComputeDesiredForce (cruiseController ℝ)).force_control_input ≠ 0
    ∧ (cruiseController ℝ).dt ≠ 0
    ∧ IsUnit ((cruiseController ℝ).controller_parameters_.allocation_matrix_
        * (cruiseController ℝ).controller_parameters_.allocation_matrix_.transpose)
    ∧ ∃ r, CalculateRotorVelocities L (cruiseController ℝ) (exampleOutputs ℝ) = some r
        ∧ r.2.rotor_velocities.length = 4
        ∧ (∃ x : Fin 4 → ℝ,
            r.2.rotor_velocities = List.ofFn fun i => some (Real.sqrt (max 0 (x i))))
        ∧ ∀ v ∈ r.2.rotor_velocities, ∃ y : ℝ, v = some y ∧ 0 ≤ y :=
  have h1 : norm ⟨Real.sqrt, fun y x => Complex.arg ⟨x, y⟩, Real.cos, Real.sin⟩
      (ComputeDesiredForce (cruiseController ℝ)).force_control_input ≠ 0 := by
    rw [ComputeDesiredForce_cruise]
    exact norm_level_force_ne_zero _ _ _
  have h2 : (cruiseController ℝ).dt ≠ 0 := by
    show (0.02 : ℝ) ≠ 0
    norm_num
  have h3 : IsUnit ((cruiseController ℝ).controller_parameters_.allocation_matrix_
      * (cruiseController ℝ).controller_parameters_.allocation_matrix_.transpose) :=
    exampleAllocation_isUnit ℝ
  ⟨rfl, rfl, h1, h2, h3,
    (C2_rotor_velocities_nonneg (fun y x => Complex.arg ⟨x, y⟩) Real.cos Real.sin
      (cruiseController ℝ) (exampleOutputs ℝ) rfl).2 fun _ => ⟨h1, h2, h3⟩⟩
/-! ## C15 and C19: what the allocation returns -/

theorem inverse_mul_cancel {K : Type} [Field K] (M : Matrix4d K) (h : M.det ≠ 0) :
    inverse M * M = 1 := by
  rw [inverse, Matrix.smul_mul, Matrix.adjugate_mul, smul_smul, inv_mul_cancel₀ h, one_smul]

theorem moment_thrust_to_rotor_velocities_mulVec {K : Type} {N : Nat} [Field K]
    (A : Matrix (Fin 4) (Fin N) K) (h : IsUnit (A * A.transpose)) (w : Vector4d K) :
    (moment_thrust_to_rotor_velocities A).mulVec ((A * A.transpose).mulVec w)
      = A.transpose.mulVec w := by
  have hdet := ((Matrix.isUnit_iff_isUnit_det _).mp h).ne_zero
  rw [moment_thrust_to_rotor_velocities, Matrix.mulVec_mulVec, Matrix.mul_assoc,
    inverse_mul_cancel _ hdet, Matrix.mul_one]

theorem rotor_count_ne_zero {K : Type} {N : Nat} [Field K]
    (A : Matrix (Fin 4) (Fin N) K) (h : IsUnit (A * A.transpose)) : N ≠ 0 := by
  rintro rfl
  have hdet := ((Matrix.isUnit_iff_isUnit_det _).mp h).ne_zero
  apply hdet
  have : A * A.transpose = 0 := by
    ext i j
    simp [Matrix.mul_apply]
  rw [this, Matrix.det_zero ⟨0⟩]

theorem symmetric_allocation {K : Type} {N : Nat} [LinearOrderedField K]
    (A : Matrix (Fin 4) (Fin N) K) (h : IsUnit (A * A.transpose)) (c : K) (hc : c ≠ 0)
    (hrow : ∀ j, A 3 j = c) (hsum : ∀ i, i ≠ 3 → ∑ j, A i j = 0) (T : K) (j : Fin N) :
    (moment_thrust_to_rotor_velocities A).mulVec ![0, 0, 0, T] j = T / (N * c) := by
  have hN : (N : K) ≠ 0 := Nat.cast_ne_zero.mpr (rotor_count_ne_zero A h)
  have hu : A.transpose.mulVec ![0, 0, 0, T / (N * c * c)] = fun _ => T / (N * c) := by
    funext k
    simp only [Matrix.mulVec, Matrix.dotProduct, Matrix.transpose_apply, Fin.sum_univ_four]
    simp [hrow]
    field_simp
    ring
  have hcmd : (A * A.transpose).mulVec ![0, 0, 0, T / (N * c * c)] = ![0, 0, 0, T] := by
    rw [← Matrix.mulVec_mulVec, hu]
    funext i
    have hi : A.mulVec (fun _ => T / (N * c)) i = (∑ k, A i k) * (T / (N * c)) := by
      simp [Matrix.mulVec, Matrix.dotProduct, Finset.sum_mul]
    rw [hi]
    by_cases h3 : i = 3
    · subst h3
      simp [hrow]
      field_simp
    · rw [hsum i h3, zero_mul]
      fin_cases i <;> simp at h3 ⊢
  rw [← hcmd, moment_thrust_to_rotor_velocities_mulVec A h, hu]

theorem exampleAllocation_symmetric (K : Type) [Field K] :
    (∀ j, exampleAllocation K 3 j = 1)
    ∧ ∀ i, i ≠ 3 → ∑ j, exampleAllocation K i j = 0 := by
  constructor
  · intro j
    fin_cases j <;> simp [exampleAllocation, Matrix.vecHead, Matrix.vecTail]
  · intro i hi
    rw [Fin.sum_univ_four]
    fin_cases i <;> simp [exampleAllocation, Matrix.vecHead, Matrix.vecTail] at hi ⊢

/-- C15. For every 4×N allocation matrix `A` with `A·Aᵀ` invertible whose thrust row has all
entries equal to one non-zero constant `c` and whose three moment rows each sum to zero, and
for every command `(0, 0, 0, T)`, the rotor allocation returns `N` equal entries, each
`sqrt (max 0 (T / (N·c)))`. -/
theorem C15_symmetric_configuration {K : Type} {N : Nat} [LinearOrderedField K] (L : Libm K)
    (A : Matrix (Fin 4) (Fin N) K) (h : IsUnit (A * A.transpose)) (c : K) (hc : c ≠ 0)
    (hrow : ∀ j, A 3 j = c) (hsum : ∀ i, i ≠ 3 → ∑ j, A i j = 0) (T : K) :
    allocateRotorVelocities L (moment_thrust_to_rotor_velocities A) ![0, 0, 0, T]
        = List.replicate N (L.sqrt (max 0 (T / (N * c))))
    ∧ (allocateRotorVelocities L (moment_thrust_to_rotor_velocities A) ![0, 0, 0, T]).length = N
    ∧ ∀ x ∈ allocateRotorVelocities L (moment_thrust_to_rotor_velocities A) ![0, 0, 0, T],
        ∀ y ∈ allocateRotorVelocities L (moment_thrust_to_rotor_velocities A) ![0, 0, 0, T],
          x = y := by
  have e : allocateRotorVelocities L (moment_thrust_to_rotor_velocities A) ![0, 0, 0, T]
      = List.replicate N (L.sqrt (max 0 (T / (N * c)))) := by
    rw [allocateRotorVelocities_eq, ← List.ofFn_const]
    congr 1
    funext j
    rw [symmetric_allocation A h c hc hrow hsum T j]
  refine ⟨e, by rw [e, List.length_replicate], fun x hx y hy => ?_⟩
  rw [e] at hx hy
  rw [List.eq_of_mem_replicate hx, List.eq_of_mem_replicate hy]

/-- C15 at the plus configuration of the example vehicle with the thrust command 10. -/
theorem C15_symmetric_configuration_witness :
    IsUnit (exampleAllocation ℚ * (exampleAllocation ℚ).transpose)
    ∧ (1 : ℚ) ≠ 0
    ∧ (∀ j, exampleAllocation ℚ 3 j = 1)
    ∧ (∀ i, i ≠ 3 → ∑ j, exampleAllocation ℚ i j = 0)
    ∧ allocateRotorVelocities ⟨id, fun _ _ => 0, id, id⟩
          (moment_thrust_to_rotor_velocities (exampleAllocation ℚ)) ![0, 0, 0, 10]
        = List.replicate 4 (id (max 0 (10 / (((4 : ℕ) : ℚ) * 1))))
    ∧ (allocateRotorVelocities ⟨id, fun _ _ => 0, id, id⟩
          (moment_thrust_to_rotor_velocities (exampleAllocation ℚ)) ![0, 0, 0, 10]).length = 4
    ∧ ∀ x ∈ allocateRotorVelocities ⟨id, fun _ _ => 0, id, id⟩
          (moment_thrust_to_rotor_velocities (exampleAllocation ℚ)) ![0, 0, 0, 10],
        ∀ y ∈ allocateRotorVelocities ⟨id, fun _ _ => 0, id, id⟩
            (moment_thrust_to_rotor_velocities (exampleAllocation ℚ)) ![0, 0, 0, 10],
          x = y :=
  ⟨exampleAllocation_isUnit ℚ, one_ne_zero, (exampleAllocation_symmetric ℚ).1,
    (exampleAllocation_symmetric ℚ).2,
    C15_symmetric_configuration ⟨id, fun _ _ => 0, id, id⟩ (exampleAllocation ℚ)
      (exampleAllocation_isUnit ℚ) 1 one_ne_zero (exampleAllocation_symmetric ℚ).1
      (exampleAllocation_symmetric ℚ).2 10⟩

/-- C19. For every 4×N allocation matrix `A` with `A·Aᵀ` invertible and every command `c`
such that all components of `Aᵀ·(A·Aᵀ)⁻¹·c` are `≥ 0`, the rotor velocities `w` returned by
the allocation satisfy `A·(w ⊙ w) = c`. -/
theorem C19_allocation_realises_command {N : Nat} (atan2 : ℝ → ℝ → ℝ) (cos sin : ℝ → ℝ)
    (A : Matrix (Fin 4) (Fin N) ℝ) (h : IsUnit (A * A.transpose)) (c : Vector4d ℝ)
    (hnn : ∀ i, 0 ≤ (moment_thrust_to_rotor_velocities A).mulVec c i) :
    ∃ w : Fin N → ℝ,
      allocateRotorVelocities ⟨Real.sqrt, atan2, cos, sin⟩
          (moment_thrust_to_rotor_velocities A) c = List.ofFn w
      ∧ A.mulVec (fun i => w i * w i) = c := by
  refine ⟨fun i => Real.sqrt (max 0 ((moment_thrust_to_rotor_velocities A).mulVec c i)),
    allocateRotorVelocities_eq _ _ _, ?_⟩
  have hw : (fun i => Real.sqrt (max 0 ((moment_thrust_to_rotor_velocities A).mulVec c i))
        * Real.sqrt (max 0 ((moment_thrust_to_rotor_velocities A).mulVec c i)))
      = (moment_thrust_to_rotor_velocities A).mulVec c := by
    funext i
    rw [max_eq_right (hnn i), Real.mul_self_sqrt (hnn i)]
  rw [hw, Matrix.mulVec_mulVec, mul_moment_thrust_to_rotor_velocities A h, Matrix.one_mulVec]

/-- C19 at the plus configuration of the example vehicle with the thrust command 4. -/
theorem C19_allocation_realises_command_witness :
    IsUnit (exampleAllocation ℝ * (exampleAllocation ℝ).transpose)
    ∧ (∀ i, 0 ≤ (moment_thrust_to_rotor_velocities (exampleAllocation ℝ)).mulVec
          ![0, 0, 0, 4] i)
    ∧ ∃ w : Fin 4 → ℝ,
        allocateRotorVelocities ⟨Real.sqrt, fun y x => Complex.arg ⟨x, y⟩, Real.cos, Real.sin⟩
            (moment_thrust_to_rotor_velocities (exampleAllocation ℝ)) ![0, 0, 0, 4]
          = List.ofFn w
        ∧ (exampleAllocation ℝ).mulVec (fun i => w i * w i) = ![0, 0, 0, 4] :=
  have hnn : ∀ i, 0 ≤ (moment_thrust_to_rotor_velocities (exampleAllocation ℝ)).mulVec
      ![0, 0, 0, 4] i := by
    intro i
    rw [symmetric_allocation (exampleAllocation ℝ) (exampleAllocation_isUnit ℝ) 1 one_ne_zero
      (exampleAllocation_symmetric ℝ).1 (exampleAllocation_symmetric ℝ).2 4 i]
    norm_num
  ⟨exampleAllocation_isUnit ℝ, hnn,
    C19_allocation_realises_command (fun y x => Complex.arg ⟨x, y⟩) Real.cos Real.sin
      (exampleAllocation ℝ) (exampleAllocation_isUnit ℝ) ![0, 0, 0, 4] hnn⟩

/-! ## C20: the attitude error matrix is antisymmetric -/

theorem skewMatrixFromVector_mulVec {K : Type} [Field K] (v x : Vector3d K) :
    (skewMatrixFromVector v).mulVec x = cross v x := by
  funext i
  fin_cases i <;>
    simp [skewMatrixFromVector, cross, Matrix.mulVec, Matrix.dotProduct, Fin.sum_univ_three,
      Matrix.vecHead, Matrix.vecTail] <;> ring

theorem vectorFromSkewMatrix_skewMatrixFromVector {K : Type} [Field K] (v : Vector3d K) :
    vectorFromSkewMatrix (skewMatrixFromVector v) = v := by
  funext i
  fin_cases i <;> simp [skewMatrixFromVector, vectorFromSkewMatrix, Matrix.vecHead,
    Matrix.vecTail]

/-- C20. For all 3×3 real matrices `R` and `R_des`, rotations or not, the attitude error matrix
`E = 0.5 · (R_desᵀ·R − Rᵀ·R_des)` satisfies `Eᵀ = −E`, the attitude error vector of
`ComputeDesiredAngularAcc` is the vee-map of `E`, and the cross-product matrix of that vector
is `E` again. -/
theorem C20_angle_error_matrix_antisymmetric (R Rd : Matrix3d ℝ) :
    (angle_error_matrix Rd R).transpose = - angle_error_matrix Rd R
    ∧ angle_error Rd R = vectorFromSkewMatrix (angle_error_matrix Rd R)
    ∧ skewMatrixFromVector (angle_error Rd R) = angle_error_matrix Rd R := by
  have hT : (angle_error_matrix Rd R).transpose = - angle_error_matrix Rd R := by
    simp only [angle_error_matrix, Matrix.transpose_smul, Matrix.transpose_sub,
      Matrix.transpose_mul, Matrix.transpose_transpose, ← smul_neg, neg_sub]
  refine ⟨hT, rfl, ?_⟩
  have hE : ∀ i j, angle_error_matrix Rd R j i = - angle_error_matrix Rd R i j := by
    intro i j
    have := congrFun (congrFun hT i) j
    simpa using this
  have hd : ∀ i, angle_error_matrix Rd R i i = 0 := by
    intro i
    have := hE i i
    linarith
  show skewMatrixFromVector (vectorFromSkewMatrix (angle_error_matrix Rd R))
    = angle_error_matrix Rd R
  generalize angle_error_matrix Rd R = E at hE hd
  ext i j
  fin_cases i <;> fin_cases j <;>
    simp [skewMatrixFromVector, vectorFromSkewMatrix, Matrix.vecHead, Matrix.vecTail, hd]
  · exact (hE 1 0).symm
  · exact (hE 2 1).symm
  · exact (hE 0 2).symm


end rotors_control
